import Mathlib

/-!
Shallow embedding of the `historic-addresses` server (`src/server.js`, primary
variant at lines 1-1310; an older appended variant of the same file follows a
separator and is embedded separately where a claim refers to it).

Conventions of the embedding:
* SQLite `TEXT` columns become `String` / `Option String` (nullable columns);
  `INTEGER` columns become `Nat`; `REAL` coordinates are modelled as
  `Option Int` (no claim under proof inspects coordinate arithmetic).
* The JSON-serialized list columns (`images`, `sources`, `tags`) are carried as
  their serialized text, exactly as the SQL layer sees them; the defensive JSON
  decode done for display is not modelled (no claim depends on decoded values).
* `LOWER(x)` is `lowerL` (ASCII case folding, as in SQLite), `x LIKE y` is
  `likeMatch` (full `%`/`_` wildcard semantics of SQLite `LIKE` after `LOWER`).
* Time is an explicit `now : Int` parameter (milliseconds, `Date.now()`); the
  server is assumed to run in UTC, so JS `Date#getFullYear`/`getDate` on an ISO
  date string read off the year/day components.
* Database failures (the 500 paths) are outside the modelled fragment: the
  embedded handlers are the code's non-error paths, which are total.
-/

namespace HistAddr

/-! ### Character and substring helpers -/

/-- ASCII digit test, written on code points (used by the date-shape model). -/
def isDig (c : Char) : Bool := 48 ≤ c.toNat && c.toNat ≤ 57

/-- Numeric value of an ASCII digit character. -/
def digVal (c : Char) : Nat := c.toNat - 48

/-- SQLite `LOWER` on a character list: ASCII-only case folding, exactly the
folding performed both by SQLite's `LOWER` and by Lean's `Char.toLower`. -/
def lowerL (l : List Char) : List Char := l.map Char.toLower

/-- Executable list-prefix test (`isPre p l` iff `p` is a prefix of `l`). -/
def isPre : List Char → List Char → Bool
  | [], _ => true
  | _ :: _, [] => false
  | a :: as, b :: bs => a == b && isPre as bs

/-- Executable substring containment: `hasSubstr p l` iff `p` occurs
contiguously inside `l`.  This is the meaning of JS `String#includes` and of a
`LIKE '%p%'` pattern whose body has no wildcards. -/
def hasSubstr (pat : List Char) : List Char → Bool
  | [] => isPre pat []
  | c :: rest => isPre pat (c :: rest) || hasSubstr pat rest

/-- SQLite `LIKE` pattern matching (after both sides have been lowered):
`%` matches any run — rendered as "some suffix matches the rest of the
pattern" — `_` matches one character, anything else literally. -/
def likeMatch : List Char → List Char → Bool
  | [], s => s.isEmpty
  | p :: ps, s =>
    if p == '%' then s.tails.any (likeMatch ps)
    else
      match s with
      | [] => false
      | c :: t => (p == '_' || p == c) && likeMatch ps t

/-- True when a character list contains neither `LIKE` wildcard. -/
def noWild (l : List Char) : Bool := l.all (fun c => !(c == '%' || c == '_'))

/-- Replace every maximal run of characters satisfying `p` by the single
character `rep` (auxiliary, carries an in-run flag). -/
def squashRunsAux (p : Char → Bool) (rep : Char) : List Char → Bool → List Char
  | [], _ => []
  | c :: cs, inRun =>
    if p c then
      if inRun then squashRunsAux p rep cs true
      else rep :: squashRunsAux p rep cs true
    else c :: squashRunsAux p rep cs false

/-- Replace every maximal run of characters satisfying `p` by `rep`
(the JS `replace(/X+/g, rep)` idiom used by the slug generators). -/
def squashRuns (p : Char → Bool) (rep : Char) (l : List Char) : List Char :=
  squashRunsAux p rep l false

/-! ### Data model (`CREATE TABLE homes` / `CREATE TABLE partners`) -/

/-- One row of the `homes` table (`src/server.js` lines 223-242). -/
structure Home where
  id : String
  slug : String
  name : String
  biography : Option String
  address : Option String
  lat : Option Int
  lng : Option Int
  images : Option String
  photo_date : Option String
  sources : Option String
  tags : Option String
  published : Nat
  created_at : Option String
  updated_at : Option String
  portrait_url : Option String
  birth_date : Option String
  death_date : Option String
deriving DecidableEq, Repr

/-- One row of the `partners` table (`src/server.js` lines 260-273). -/
structure Partner where
  id : String
  name : String
  description : Option String
  logo_url : Option String
  website : Option String
  instagram : Option String
  email : Option String
  published : Nat
  display_order : Int
  created_at : Option String
  updated_at : Option String
deriving DecidableEq, Repr

/-! ### The `apiCache` object (`src/server.js` lines 62-102)

A JS `Map` is insertion-ordered, so it is embedded as an association list;
`set` on an existing key overwrites in place, otherwise appends. -/

/-- One cache slot: the stored value `d` and its expiry instant `e`
(`Date.now() + ttlSeconds * 1000`). -/
structure CacheEntry (α : Type) where
  d : α
  e : Int
deriving DecidableEq, Repr

/-- The `apiCache` state: insertion-ordered entries plus the configured
maximum size (200 in the shipped configuration, since
`MANUAL_HIGH_PERFORMANCE_MODE = true` forces `IS_LOW_SPEC = false`). -/
structure ApiCache (α : Type) where
  data : List (String × CacheEntry α)
  maxSize : Nat
deriving DecidableEq, Repr

/-- First entry stored under `key`, if any (JS `Map.get`). -/
def assocFind (l : List (String × CacheEntry α)) (key : String) :
    Option (CacheEntry α) :=
  match l.find? (fun p => p.1 == key) with
  | none => none
  | some p => some p.2

/-- JS `Map.set`: overwrite in place when the key is present, else append. -/
def assocSet (l : List (String × CacheEntry α)) (key : String)
    (v : CacheEntry α) : List (String × CacheEntry α) :=
  if l.any (fun p => p.1 == key) then
    l.map (fun p => if p.1 == key then (key, v) else p)
  else l ++ [(key, v)]

/-- `apiCache.get`: expired entries are deleted and report a miss. -/
def cacheGet (c : ApiCache α) (now : Int) (key : String) :
    Option α × ApiCache α :=
  match assocFind c.data key with
  | none => (none, c)
  | some item =>
    if now > item.e then
      (none, { c with data := c.data.filter (fun p => !(p.1 == key)) })
    else (some item.d, c)

/-- `apiCache.set`: when full, evict the oldest quarter
(`Math.floor(maxSize * 0.25)` = `maxSize / 4`), then store with expiry
`now + ttlSeconds * 1000`. -/
def cacheSet (c : ApiCache α) (now : Int) (key : String) (value : α)
    (ttlSeconds : Int) : ApiCache α :=
  let kept :=
    if c.maxSize ≤ c.data.length then c.data.drop (c.maxSize / 4) else c.data
  { c with data := assocSet kept key ⟨value, now + ttlSeconds * 1000⟩ }

/-- `apiCache.clear`. -/
def cacheClear (c : ApiCache α) : ApiCache α := { c with data := [] }

/-- The cache as initialized at server start. -/
def emptyCache (α : Type) : ApiCache α := ⟨[], 200⟩

/-! ### Query builder: `GET /api/homes` (`src/server.js` lines 526-650) -/

/-- The parsed query parameters of a list request, after the defaulting at
lines 535-540.  `page`/`limit` are modelled for the validated range
`page ≥ 1`, `limit ≥ 1` that the claims under proof quantify over (the JS
`parseInt(..) || default` defaulting of absent or `0`/`NaN` values lands in
this range; negative overrides are outside the modelled fragment). -/
structure ListQuery where
  all : Bool
  page : Nat
  limit : Nat
  search : String
  searchMode : String
  tag : String
deriving DecidableEq, Repr

/-- Scanner behind `searchWords`: accumulates the current word (reversed) and
emits maximal non-whitespace runs. -/
def wordsAux : List Char → List Char → List (List Char)
  | [], acc => if acc.isEmpty then [] else [acc.reverse]
  | c :: t, acc =>
    if c.isWhitespace then
      if acc.isEmpty then wordsAux t [] else acc.reverse :: wordsAux t []
    else wordsAux t (c :: acc)

/-- `search.trim().split(/\s+/).filter(w => w.length > 0)`: the maximal
non-whitespace runs of the search string, in order. -/
def searchWords (s : String) : List String :=
  (wordsAux s.data []).map String.mk

/-- One `LOWER(column) LIKE LOWER('%' + word + '%')` clause.  A `NULL` column
makes the clause non-true, as in SQL three-valued logic. -/
def fieldLike (w : String) : Option String → Bool
  | none => false
  | some f => likeMatch ('%' :: lowerL w.data ++ ['%']) (lowerL f.data)

/-- The per-word disjunction built at lines 555-570: name only in `'name'`
mode, otherwise name OR biography OR address OR tags. -/
def wordMatches (mode : String) (h : Home) (w : String) : Bool :=
  if mode == "name" then fieldLike w (some h.name)
  else
    fieldLike w (some h.name) || fieldLike w h.biography ||
      fieldLike w h.address || fieldLike w h.tags

/-- The complete `WHERE` clause of the list endpoint: visibility, the
AND-across-words search clause, and the tag clause (lines 543-581). -/
def homeFilter (q : ListQuery) (h : Home) : Bool :=
  (q.all || h.published == 1) &&
    (q.search == "" || (searchWords q.search).all (wordMatches q.searchMode h)) &&
    (q.tag == "" || fieldLike q.tag h.tags)

/-- `ORDER BY name` (SQLite default BINARY collation, i.e. code-point order). -/
def sortByName (l : List Home) : List Home :=
  l.insertionSort (fun a b => a.name ≤ b.name)

/-- The list-mode projection of `rowToHome` (lines 418-447) applied to the
columns selected at lines 594-602.  The JSON decode of `images`/`tags` for
display is kept as the serialized text (see the header note). -/
structure HomeSummary where
  id : String
  slug : String
  name : String
  address : String
  coordinates : Option (Int × Int)
  images : Option String
  tags : Option String
  published : Bool
  biography : String
deriving DecidableEq, Repr

/-- `rowToHome(row, true)` on a row carrying `SUBSTR(biography, 1, 200)` as
`bio_snippet`; JS truthiness makes `0`-valued coordinates and empty snippets
fall to the null branches. -/
def rowToHomeList (h : Home) : HomeSummary :=
  { id := h.id
    slug := h.slug
    name := h.name
    address := h.address.getD ""
    coordinates :=
      match h.lat, h.lng with
      | some a, some b => if a ≠ 0 ∧ b ≠ 0 then some (a, b) else none
      | _, _ => none
    images := h.images
    tags := h.tags
    published := true
    biography :=
      match h.biography with
      | none => ""
      | some b => if b == "" then "" else String.mk (b.data.take 200) ++ "..." }

/-- The `pagination` object of the list response (lines 615-622). -/
structure Pagination where
  page : Nat
  limit : Nat
  total : Nat
  totalPages : Nat
  hasNext : Bool
  hasPrev : Bool
deriving DecidableEq, Repr

/-- A list response body. -/
structure ListResponse where
  data : List HomeSummary
  pagination : Pagination
deriving DecidableEq, Repr

/-- The pure computation of a list response: count with the filter, derive
`totalPages = Math.ceil(total / limit)` (for the validated `limit ≥ 1` this is
`(total + limit - 1) / limit`), fetch `LIMIT limit OFFSET (page-1)*limit` from
the sorted filtered rows, and project each row (lines 536-623). -/
def queryHomes (store : List Home) (q : ListQuery) : ListResponse :=
  let limit := min q.limit 20
  let offset := (q.page - 1) * limit
  let filtered := store.filter (homeFilter q)
  let total := filtered.length
  let totalPages := (total + limit - 1) / limit
  let rows := ((sortByName filtered).drop offset).take limit
  { data := rows.map rowToHomeList
    pagination :=
      { page := q.page
        limit := limit
        total := total
        totalPages := totalPages
        hasNext := decide (q.page < totalPages)
        hasPrev := decide (1 < q.page) } }

/-- The cache key of a list request: `req.url`, i.e. the path with the query
string (rendered canonically from the parsed parameters). -/
def listKey (q : ListQuery) : String :=
  "/api/homes?all=" ++ (if q.all then "true" else "false") ++
    "&page=" ++ toString q.page ++ "&limit=" ++ toString q.limit ++
    "&search=" ++ q.search ++ "&searchMode=" ++ q.searchMode ++
    "&tag=" ++ q.tag

/-- The full `GET /api/homes` handler: serve from cache when possible,
otherwise compute and cache the response for 30 seconds — unless the result is
empty with no search and no tag (`isInitializing`, lines 625-636), in which
case the response is returned uncached. -/
def handleGetHomes (cache : ApiCache ListResponse) (now : Int)
    (store : List Home) (q : ListQuery) : ListResponse × ApiCache ListResponse :=
  match cacheGet cache now (listKey q) with
  | (some r, c) => (r, c)
  | (none, c) =>
    let r := queryHomes store q
    if r.data.isEmpty && q.search == "" && q.tag == "" then (r, c)
    else (r, cacheSet c now (listKey q) r 30)

/-! ### Write handlers for homes (`src/server.js` lines 379-412, 777-885) -/

/-- A request body for a home write; text list fields arrive already
serialized (the `JSON.stringify` at the storage boundary is not modelled). -/
structure HomeInput where
  id : Option String
  slug : Option String
  name : Option String
  biography : Option String
  address : Option String
  lat : Option Int
  lng : Option Int
  images : Option String
  photo_date : Option String
  sources : Option String
  tags : Option String
  published : Option Bool
  portrait_url : Option String
  birth_date : Option String
  death_date : Option String
deriving DecidableEq, Repr

/-- JS string falsiness: `undefined`/missing or the empty string. -/
def jsFalsy : Option String → Bool
  | none => true
  | some s => s == ""

/-- Slug derivation at lines 786-793: lower-case, strip characters outside
`[a-z0-9\s-]`, squash whitespace runs to `-`, squash `-` runs, trim `-`. -/
def slugify (name : String) : String :=
  let lowered := lowerL name.data
  let kept := lowered.filter
    (fun c => (97 ≤ c.toNat && c.toNat ≤ 122) || isDig c || c.isWhitespace || c == '-')
  let dashed := squashRuns Char.isWhitespace '-' kept
  let collapsed := squashRuns (fun c => c == '-') '-' dashed
  String.mk ((collapsed.dropWhile (fun c => c == '-')).reverse.dropWhile
    (fun c => c == '-')).reverse

/-- The row built by `insertHome` from a request body whose `slug`/`id`/
timestamps have already been defaulted (lines 379-412). -/
def homeOfInput (i : HomeInput) (slug hid now : String) : Home :=
  { id := hid
    slug := slug
    name := i.name.getD ""
    biography := i.biography
    address := i.address
    lat := i.lat
    lng := i.lng
    images := i.images
    photo_date := i.photo_date
    sources := i.sources
    tags := i.tags
    published := if i.published == some false then 0 else 1
    created_at := some now
    updated_at := some now
    portrait_url := i.portrait_url
    birth_date := i.birth_date
    death_date := i.death_date }

/-- Result of a home write: HTTP status, the table afterwards, and whether
`apiCache.clear()` ran. -/
structure WriteResult where
  status : Nat
  store : List Home
  cacheCleared : Bool
deriving DecidableEq, Repr

/-- `POST /api/homes` (lines 777-809): 400 without a name; otherwise derive
slug and id, `INSERT OR REPLACE` (which evicts any row conflicting on the
`id` primary key or the `UNIQUE slug`), clear the cache, 201. -/
def createHomeHandler (store : List Home) (i : HomeInput) (now : String) :
    WriteResult :=
  if jsFalsy i.name then { status := 400, store := store, cacheCleared := false }
  else
    let slug := if jsFalsy i.slug then slugify (i.name.getD "") else i.slug.getD ""
    let hid := if jsFalsy i.id then slug else i.id.getD ""
    let h := homeOfInput i slug hid now
    { status := 201
      store := store.filter (fun x => !(x.id == hid || x.slug == slug)) ++ [h]
      cacheCleared := true }

/-- The row produced by the `UPDATE homes SET ...` at lines 821-846 (the `id`
column is not assigned). -/
def updatedHome (old : Home) (i : HomeInput) (now : String) : Home :=
  { id := old.id
    slug := i.slug.getD ""
    name := i.name.getD ""
    biography := i.biography
    address := i.address
    lat := i.lat
    lng := i.lng
    images := i.images
    photo_date := i.photo_date
    sources := i.sources
    tags := i.tags
    published := if i.published == some false then 0 else 1
    created_at := old.created_at
    updated_at := some now
    portrait_url := i.portrait_url
    birth_date := i.birth_date
    death_date := i.death_date }

/-- `PUT /api/homes/:id` (lines 815-864): 404 when no row has the id (and the
cache is left alone); otherwise replace the row, clear the cache, 200. -/
def updateHomeHandler (store : List Home) (hid : String) (i : HomeInput)
    (now : String) : WriteResult :=
  let changes := store.countP (fun h => h.id == hid)
  if changes == 0 then { status := 404, store := store, cacheCleared := false }
  else
    { status := 200
      store := store.map (fun h => if h.id == hid then updatedHome h i now else h)
      cacheCleared := true }

/-- Response of the primary `DELETE /api/homes/:id` (lines 870-885): always a
200 success carrying `deleted: this.changes > 0`, with an unconditional cache
clear. -/
structure DeleteHomeResult where
  status : Nat
  deleted : Bool
  store : List Home
  cacheCleared : Bool
deriving DecidableEq, Repr

/-- The primary `DELETE /api/homes/:id` handler (lines 870-885). -/
def deleteHomeHandler (store : List Home) (hid : String) : DeleteHomeResult :=
  let changes := store.countP (fun h => h.id == hid)
  { status := 200
    deleted := decide (0 < changes)
    store := store.filter (fun h => !(h.id == hid))
    cacheCleared := true }

/-- Response of the older appended `DELETE /api/homes/:id` variant
(`src/server.js` lines 1608-1620): that server file has no `apiCache`. -/
structure DeleteHomeOldResult where
  status : Nat
  store : List Home
deriving DecidableEq, Repr

/-- The older appended `DELETE /api/homes/:id` variant (lines 1608-1620):
404 when `this.changes === 0`, else a 200 success. -/
def deleteHomeHandlerOld (store : List Home) (hid : String) :
    DeleteHomeOldResult :=
  let changes := store.countP (fun h => h.id == hid)
  if changes == 0 then { status := 404, store := store }
  else { status := 200, store := store.filter (fun h => !(h.id == hid)) }

/-! ### Write handlers for partners (`src/server.js` lines 912-1008) -/

/-- A request body for a partner write. -/
structure PartnerInput where
  id : Option String
  name : Option String
  description : Option String
  logo_url : Option String
  website : Option String
  instagram : Option String
  email : Option String
  published : Option Bool
  display_order : Option Int
deriving DecidableEq, Repr

/-- Partner id derivation (line 919):
`name.toLowerCase().replace(/[^a-z0-9]+/g, '-')` — note: no trimming. -/
def partnerIdOf (name : String) : String :=
  String.mk (squashRuns
    (fun c => !((97 ≤ c.toNat && c.toNat ≤ 122) || isDig c)) '-'
    (lowerL name.data))

/-- Result of a partner write. -/
structure PartnerWriteResult where
  status : Nat
  store : List Partner
  cacheCleared : Bool
deriving DecidableEq, Repr

/-- `POST /api/partners` (lines 912-948): 400 without a name; a plain
`INSERT` conflicts on a duplicate primary key and surfaces as a 500.  No
`apiCache.clear()` call appears anywhere in this handler. -/
def createPartnerHandler (store : List Partner) (p : PartnerInput)
    (now : String) : PartnerWriteResult :=
  if jsFalsy p.name then { status := 400, store := store, cacheCleared := false }
  else
    let pid := if jsFalsy p.id then partnerIdOf (p.name.getD "") else p.id.getD ""
    if store.any (fun x => x.id == pid) then
      { status := 500, store := store, cacheCleared := false }
    else
      { status := 201
        store := store ++
          [{ id := pid
             name := p.name.getD ""
             description := p.description
             logo_url := p.logo_url
             website := p.website
             instagram := p.instagram
             email := p.email
             published := if p.published == some false then 0 else 1
             display_order := p.display_order.getD 0
             created_at := some now
             updated_at := some now }]
        cacheCleared := false }

/-- `PUT /api/partners/:id` (lines 954-990): 404 when no row matches, else
200.  No `apiCache.clear()` call appears in this handler. -/
def updatePartnerHandler (store : List Partner) (pid : String)
    (p : PartnerInput) (now : String) : PartnerWriteResult :=
  let changes := store.countP (fun x => x.id == pid)
  if changes == 0 then { status := 404, store := store, cacheCleared := false }
  else
    { status := 200
      store := store.map (fun x =>
        if x.id == pid then
          { id := x.id
            name := p.name.getD ""
            description := p.description
            logo_url := p.logo_url
            website := p.website
            instagram := p.instagram
            email := p.email
            published := if p.published == some false then 0 else 1
            display_order := p.display_order.getD 0
            created_at := x.created_at
            updated_at := some now }
        else x)
      cacheCleared := false }

/-- `DELETE /api/partners/:id` (lines 996-1008): always a 200 success with a
`deleted` flag.  No `apiCache.clear()` call appears in this handler. -/
def deletePartnerHandler (store : List Partner) (pid : String) :
    PartnerWriteResult :=
  { status := 200
    store := store.filter (fun x => !(x.id == pid))
    cacheCleared := false }

/-! ### Date-string semantics shared by SQLite `strftime` and JS `Date`

SQLite's date parser accepts several formats (`YYYY-MM-DD`, optionally
followed by a time part, time-only strings, the keyword `now`, and decimal
Julian-day numbers); the JS ISO `Date` parser accepts `YYYY-MM-DD` with an
optional time part.  Both roll a range-valid but calendar-invalid day (such
as `02-30`) over into the next month.  This fragment models exactly the
date-only, calendar-valid `YYYY-MM-DD` strings — the form the schema stores —
and maps everything else to the invalid case.  The theorems below invoke the
model only where it agrees with the real parsers: on calendar-valid
date-only strings (C5, C6), and on strings containing a character that no
SQLite date/time format accepts anywhere, which every parse path maps to
`NULL` (`sqlDateHopeless`, amended C7). -/

/-- The syntactic shape `DDDD-DD-DD` (D a digit): ten characters with hyphens
exactly at positions 4 and 7. -/
def ymdShape : List Char → Bool
  | [y1, y2, y3, y4, s1, m1, m2, s2, d1, d2] =>
    isDig y1 && isDig y2 && isDig y3 && isDig y4 && s1 == '-' &&
      isDig m1 && isDig m2 && s2 == '-' && isDig d1 && isDig d2
  | _ => false

/-- Numeric year of a shaped date string. -/
def yearVal : List Char → Nat
  | y1 :: y2 :: y3 :: y4 :: _ =>
    ((digVal y1 * 10 + digVal y2) * 10 + digVal y3) * 10 + digVal y4
  | _ => 0

/-- Numeric month of a shaped date string. -/
def monthVal : List Char → Nat
  | _ :: _ :: _ :: _ :: _ :: m1 :: m2 :: _ => digVal m1 * 10 + digVal m2
  | _ => 0

/-- Numeric day of a shaped date string. -/
def dayVal : List Char → Nat
  | _ :: _ :: _ :: _ :: _ :: _ :: _ :: _ :: d1 :: d2 :: _ =>
    digVal d1 * 10 + digVal d2
  | _ => 0

/-- Gregorian leap-year rule. -/
def isLeapYear (y : Nat) : Bool :=
  (y % 4 == 0 && y % 100 != 0) || y % 400 == 0

/-- Days in a month of a given year. -/
def daysInMonth (y m : Nat) : Nat :=
  if m == 2 then (if isLeapYear y then 29 else 28)
  else if m == 4 || m == 6 || m == 9 || m == 11 then 30
  else 31

/-- The bare `YYYY-MM-DD` shape with month `01..12` and day `01..31`: the
date-only fragment of SQLite's accepted formats.  (SQLite also accepts
datetime, time-only, `now` and Julian-day forms, which are outside this
model.) -/
def sqlDateOk (s : String) : Bool :=
  ymdShape s.data &&
    (1 ≤ monthVal s.data && monthVal s.data ≤ 12) &&
    (1 ≤ dayVal s.data && dayVal s.data ≤ 31)

/-- A calendar-valid `YYYY-MM-DD` date: `sqlDateOk` and the day exists in the
month, so neither SQLite nor JS rolls it over. -/
def validYMD (s : String) : Bool :=
  sqlDateOk s && dayVal s.data ≤ daysInMonth (yearVal s.data) (monthVal s.data)

/-- Characters that can occur somewhere in a string SQLite's date-time
parser accepts: digits, whitespace, the punctuation of the ISO and
Julian-day forms (`-`, `+`, `:`, `.`, exponent `e`/`E`), the `T`/`Z` markers
and the letters of the case-insensitive keyword `now`.  Over-approximating
this set is sound — it only narrows `sqlDateHopeless`. -/
def sqlDateChar (c : Char) : Bool :=
  isDig c || c.isWhitespace ||
    c == '-' || c == '+' || c == ':' || c == '.' ||
    c == 'T' || c == 't' || c == 'Z' || c == 'z' ||
    c == 'e' || c == 'E' ||
    c == 'n' || c == 'N' || c == 'o' || c == 'O' || c == 'w' || c == 'W'

/-- A string containing a character outside `sqlDateChar` fails every format
SQLite's date parser tries, so SQLite maps it to `NULL` — a sound syntactic
witness of unparseability. -/
def sqlDateHopeless (s : String) : Bool :=
  s.data.any (fun c => !(sqlDateChar c))

/-- `strftime('%m-%d', s)` modelled on the date-only fragment: the month-day
characters of a calendar-valid `YYYY-MM-DD` string, `none` otherwise.  This
agrees with SQLite exactly on calendar-valid `YYYY-MM-DD` strings and on
`sqlDateHopeless` strings (see the section note); the theorems below apply
it only there. -/
def strftimeMD (s : String) : Option String :=
  if validYMD s then some (String.mk ((s.data.drop 5).take 5)) else none

/-- `strftime('%m', s)` modelled on the date-only fragment, with the same
agreement regions as `strftimeMD`. -/
def strftimeM (s : String) : Option String :=
  if validYMD s then some (String.mk ((s.data.drop 5).take 2)) else none

/-- `strftime` over a nullable column: `NULL` in, `NULL` out. -/
def strftimeMDOpt : Option String → Option String
  | none => none
  | some s => strftimeMD s

/-- `strftime('%m', ..)` over a nullable column. -/
def strftimeMOpt : Option String → Option String
  | none => none
  | some s => strftimeM s

/-- `new Date(s).getFullYear()` under UTC: the year component for a
calendar-valid ISO date, `NaN` (modelled as `none`) otherwise. -/
def jsGetFullYear (s : String) : Option Int :=
  if validYMD s then some (yearVal s.data) else none

/-- `new Date(s).getDate()` under UTC. -/
def jsGetDate (s : String) : Option Nat :=
  if validYMD s then some (dayVal s.data) else none

/-- `String(n).padStart(2, '0')` for the small naturals the handlers feed it. -/
def pad2 (n : Nat) : String :=
  if n < 10 then "0" ++ toString n else toString n

/-- `String(new Date(s).getDate()).padStart(2, '0')`; an invalid date gives
`String(NaN) = "NaN"`. -/
def jsDayPadded (s : String) : String :=
  match jsGetDate s with
  | some n => pad2 n
  | none => "NaN"

/-- `viewingYear - new Date(s).getFullYear()`, with `NaN` results modelled as
`none`. -/
def yearsAgo (viewYear : Int) (s : String) : Option Int :=
  (jsGetFullYear s).map (fun y => viewYear - y)

/-- One calendar event as emitted by both calendar endpoints. -/
structure CalEvent where
  name : String
  slug : String
  type : String
  full_date : String
  years_ago : Option Int
deriving DecidableEq, Repr

/-- The event object pushed at lines 1046-1052 / 1117-1123 and their death
counterparts. -/
def mkEvent (h : Home) (ty : String) (d : String) (viewYear : Int) : CalEvent :=
  { name := h.name, slug := h.slug, type := ty, full_date := d,
    years_ago := yearsAgo viewYear d }

/-- The SQL pre-filter of `GET /api/calendar/today` (lines 1094-1102). -/
def todayPrefilter (monthDay : String) (h : Home) : Bool :=
  h.published == 1 &&
    (strftimeMDOpt h.birth_date == some monthDay ||
      strftimeMDOpt h.death_date == some monthDay)

/-- The JS per-row scan of `GET /api/calendar/today` (lines 1112-1140): each
date field is emitted when `date.substring(5) === monthDay`. -/
def todayRowEvents (monthDay : String) (viewYear : Int) (h : Home) :
    List CalEvent :=
  (match h.birth_date with
   | some d =>
     if String.mk (d.data.drop 5) == monthDay then [mkEvent h "birth" d viewYear]
     else []
   | none => []) ++
  (match h.death_date with
   | some d =>
     if String.mk (d.data.drop 5) == monthDay then [mkEvent h "death" d viewYear]
     else []
   | none => [])

/-- `GET /api/calendar/today` without its cache layer: SQL pre-filter, then
the JS scan (lines 1094-1140). -/
def calendarToday (store : List Home) (monthDay : String) (viewYear : Int) :
    List CalEvent :=
  (store.filter (todayPrefilter monthDay)).flatMap
    (todayRowEvents monthDay viewYear)

/-- The grouped `events` object of `GET /api/calendar`: a JS object keyed by
`"MM-DD"`, in insertion order. -/
abbrev EventMap := List (String × List CalEvent)

/-- `if (!events[key]) events[key] = []; events[key].push(ev)`. -/
def addEvent (events : EventMap) (key : String) (ev : CalEvent) : EventMap :=
  if events.any (fun p => p.1 == key) then
    events.map (fun p => if p.1 == key then (p.1, p.2 ++ [ev]) else p)
  else events ++ [(key, [ev])]

/-- The SQL pre-filter of `GET /api/calendar` (lines 1024-1029). -/
def monthPrefilter (mm : String) (h : Home) : Bool :=
  h.published == 1 &&
    (strftimeMOpt h.birth_date == some mm || strftimeMOpt h.death_date == some mm)

/-- The JS per-row step of `GET /api/calendar` (lines 1037-1071): a date field
is taken when `date.includes('-' + mm + '-')`, and filed under
`mm + '-' + String(new Date(date).getDate()).padStart(2, '0')`. -/
def monthRowEvents (mm : String) (viewYear : Int) (h : Home)
    (events : EventMap) : EventMap :=
  let afterBirth :=
    match h.birth_date with
    | some d =>
      if hasSubstr ('-' :: mm.data ++ ['-']) d.data then
        addEvent events (mm ++ "-" ++ jsDayPadded d) (mkEvent h "birth" d viewYear)
      else events
    | none => events
  match h.death_date with
  | some d =>
    if hasSubstr ('-' :: mm.data ++ ['-']) d.data then
      addEvent afterBirth (mm ++ "-" ++ jsDayPadded d) (mkEvent h "death" d viewYear)
    else afterBirth
  | none => afterBirth

/-- `GET /api/calendar` without its cache layer (lines 1014-1075); `mm` is
the zero-padded two-digit month string built at line 1015. -/
def calendarMonth (store : List Home) (mm : String) (viewYear : Int) :
    EventMap :=
  (store.filter (monthPrefilter mm)).foldl
    (fun events h => monthRowEvents mm viewYear h events) []

/-- The full `GET /api/calendar/today` handler with its cache (lines
1082-1148): the cache key is the constant `'calendar_today'` — the `year`
override is parsed but takes no part in the key — and a computed response is
stored for 300 seconds. -/
def handleCalendarToday (cache : ApiCache (List CalEvent)) (now : Int)
    (store : List Home) (monthDay : String) (viewYear : Int) :
    List CalEvent × ApiCache (List CalEvent) :=
  match cacheGet cache now "calendar_today" with
  | (some v, c) => (v, c)
  | (none, c) =>
    let events := calendarToday store monthDay viewYear
    (events, cacheSet c now "calendar_today" events 300)

/-! ### Spec-side definitions

These definitions follow the words of the specification, for comparison with
the code-derived definitions above (refinement claims C3 and C5). -/

/-- Spec wording for one search field: case-insensitive substring
containment of the word in the field (C3). -/
def specFieldHas (w : String) : Option String → Bool
  | none => false
  | some f => hasSubstr (lowerL w.data) (lowerL f.data)

/-- Spec wording for one word: name only in `'name'` mode, otherwise name OR
biography OR address OR tags (C3). -/
def specWordHit (mode : String) (h : Home) (w : String) : Bool :=
  if mode == "name" then specFieldHas w (some h.name)
  else
    specFieldHas w (some h.name) || specFieldHas w h.biography ||
      specFieldHas w h.address || specFieldHas w h.tags

/-- The claim's reading of the whole list filter for a non-empty search:
every word independently substring-matches the permitted field set, other
clauses unchanged (C3). -/
def claimSearchFilter (q : ListQuery) (h : Home) : Bool :=
  (q.all || h.published == 1) &&
    (searchWords q.search).all (specWordHit q.searchMode h) &&
    (q.tag == "" || fieldLike q.tag h.tags)

/-- Month-day substring of a date string, positions 5-9 zero-indexed (C5). -/
def monthDaySub (d : String) : String := String.mk ((d.data.drop 5).take 5)

/-- Month substring of a date string, positions 5-6 zero-indexed (C5). -/
def monthSub (d : String) : String := String.mk ((d.data.drop 5).take 2)

/-- Day substring of a date string, positions 8-9 zero-indexed (C5). -/
def daySub (d : String) : String := String.mk ((d.data.drop 8).take 2)

/-- The spec's description of a day-level query on one record: each of
`birth_date`/`death_date` matches exactly when its month-day substring equals
the target month-day (C5). -/
def specTodayEvents (monthDay : String) (viewYear : Int) (h : Home) :
    List CalEvent :=
  if h.published == 1 then
    (match h.birth_date with
     | some d => if monthDaySub d == monthDay then [mkEvent h "birth" d viewYear] else []
     | none => []) ++
    (match h.death_date with
     | some d => if monthDaySub d == monthDay then [mkEvent h "death" d viewYear] else []
     | none => [])
  else []

/-- The spec's description of a month-level query on one record: a date field
matches when its month substring equals the target month, and is filed under
the `"MM-DD"` string of the matched date (C5). -/
def specMonthPairs (mm : String) (viewYear : Int) (h : Home) :
    List (String × CalEvent) :=
  if h.published == 1 then
    (match h.birth_date with
     | some d =>
       if monthSub d == mm then [(mm ++ "-" ++ daySub d, mkEvent h "birth" d viewYear)]
       else []
     | none => []) ++
    (match h.death_date with
     | some d =>
       if monthSub d == mm then [(mm ++ "-" ++ daySub d, mkEvent h "death" d viewYear)]
       else []
     | none => [])
  else []

/-- Group keyed events into a mapping in first-appearance order (C5). -/
def specGroup (l : List (String × CalEvent)) : EventMap :=
  l.foldl (fun events p => addEvent events p.1 p.2) []

/-- True when an optional date field is absent or calendar-valid. -/
def optValidYMD : Option String → Bool
  | none => true
  | some d => validYMD d

/-- Every present date field of the record is a calendar-valid `YYYY-MM-DD`
(the well-formedness hypothesis of C5 and C6). -/
def homeDatesValid (h : Home) : Bool :=
  optValidYMD h.birth_date && optValidYMD h.death_date

/-- True when an optional date field is absent or `sqlDateHopeless`. -/
def optDeadDate : Option String → Bool
  | none => true
  | some d => sqlDateHopeless d

/-- Neither date field of the record is a string SQLite can parse: each is
missing, or contains a character no SQLite date/time format accepts — the
hypothesis of the amended C7. -/
def homeDatesDead (h : Home) : Bool :=
  optDeadDate h.birth_date && optDeadDate h.death_date

/-! ### Concrete sample data for witnesses and counterexamples -/

/-- A blank row with every nullable column `NULL`. -/
def baseHome : Home :=
  { id := "", slug := "", name := "", biography := none, address := none,
    lat := none, lng := none, images := none, photo_date := none,
    sources := none, tags := none, published := 1, created_at := none,
    updated_at := none, portrait_url := none, birth_date := none,
    death_date := none }

/-- Sample record echoing the spec's Levski example (`birth_date`
"1850-11-07"). -/
def demoLevski : Home :=
  { baseHome with
    id := "vasil-levski", slug := "vasil-levski", name := "Vasil Levski",
    biography := some "Apostle of Freedom", address := some "Karlovo",
    tags := some "[\"Revolutionary\"]",
    birth_date := some "1850-11-07", death_date := some "1873-02-18" }

/-- Sample record echoing the spec's Botev example. -/
def demoBotev : Home :=
  { baseHome with
    id := "hristo-botev", slug := "hristo-botev", name := "Hristo Botev",
    biography := some "Poet and revolutionary", address := some "Kalofer",
    tags := some "[\"Poet\"]",
    birth_date := some "1848-01-06", death_date := some "1876-06-01" }

/-- A third sample record. -/
def demoAngel : Home :=
  { baseHome with
    id := "angel-kanchev", slug := "angel-kanchev", name := "Angel Kanchev" }

/-- A three-record sample table. -/
def demoStore : List Home := [demoLevski, demoBotev, demoAngel]

/-- A record with a malformed `birth_date` next to a well-formed matching
`death_date` (C7 counterexample). -/
def badDateHome : Home :=
  { baseHome with
    id := "bad-date", slug := "bad-date", name := "Bad Date",
    birth_date := some "xxxxx11-07", death_date := some "1850-11-07" }

/-- A record with one malformed date and one missing date (amended C7). -/
def deadDatesHome : Home :=
  { baseHome with
    id := "dead-dates", slug := "dead-dates", name := "Dead Dates",
    birth_date := some "not a date!", death_date := none }

/-- A default list query (`page=1&limit=6`, no filters). -/
def q0 : ListQuery :=
  { all := false, page := 1, limit := 6, search := "", searchMode := "all",
    tag := "" }

/-- A search whose word carries the `_` LIKE wildcard (C3 counterexample). -/
def qWild : ListQuery := { q0 with all := true, limit := 20, search := "v_sil" }

/-- The spec's two-word sample search. -/
def qWords : ListQuery :=
  { q0 with all := true, limit := 20, search := "vasil karlovo" }

/-- Page 2 of a two-per-page listing (C4 witness). -/
def qPage2 : ListQuery := { q0 with all := true, page := 2, limit := 2 }

/-- A valid partner-creation body (C2 counterexample). -/
def demoPartnerInput : PartnerInput :=
  { id := none, name := some "Acme Museums", description := none,
    logo_url := none, website := none, instagram := none, email := none,
    published := none, display_order := none }

/-! ## Theorems

General-purpose lemmas come first, then one theorem per claim (with a witness
where the theorem carries hypotheses). -/

/-- A string is empty exactly when its character list is. -/
theorem str_empty_iff (s : String) : s = "" ↔ s.data = [] := by
  cases s with
  | mk data =>
    rw [show ("" : String) = ⟨[]⟩ from rfl]
    constructor
    · intro h; injection h
    · intro h; exact congrArg String.mk h

/-- `countP` is positive exactly when a member satisfies the predicate. -/
theorem countP_pos_iff_mem {p : α → Bool} {l : List α} :
    0 < l.countP p ↔ ∃ a ∈ l, p a = true := List.countP_pos_iff

/-- C1: the claim reads "404 if id unknown", but the primary
`DELETE /api/homes/:id` handler answers 200 with `deleted: false` for an
unknown id — here concretely on a one-record table and a missing id. -/
theorem c1_delete_unknown_counterexample :
    (deleteHomeHandler [demoLevski] "no-such-id").status = 200 ∧
      ¬ (deleteHomeHandler [demoLevski] "no-such-id").status = 404 ∧
      (deleteHomeHandler [demoLevski] "no-such-id").deleted = false := by
  decide

/-- C1 (amended): an existing id is hard-deleted with a success response in
both variants; for an unknown id the primary handler still answers 200, with
`deleted: false`, while only the older appended variant answers 404. -/
theorem c1_delete_amended (store : List Home) (hid : String) :
    ((deleteHomeHandler store hid).status = 200 ∧
      ((deleteHomeHandler store hid).deleted = true ↔ ∃ h ∈ store, h.id = hid) ∧
      (deleteHomeHandler store hid).store =
        store.filter (fun h => !(h.id == hid))) ∧
    ((deleteHomeHandlerOld store hid).status =
        (if store.any (fun h => h.id == hid) then 200 else 404) ∧
      ((deleteHomeHandlerOld store hid).status = 404 ↔
        ¬ ∃ h ∈ store, h.id = hid) ∧
      (deleteHomeHandlerOld store hid).store =
        store.filter (fun h => !(h.id == hid))) := by
  have hcount : 0 < store.countP (fun h => h.id == hid) ↔ ∃ h ∈ store, h.id = hid := by
    rw [countP_pos_iff_mem]
    constructor
    · rintro ⟨h, hm, hb⟩; exact ⟨h, hm, by simpa using hb⟩
    · rintro ⟨h, hm, hb⟩; exact ⟨h, hm, by simpa using hb⟩
  have hany : store.any (fun h => h.id == hid) = true ↔ ∃ h ∈ store, h.id = hid := by
    rw [List.any_eq_true]
    constructor
    · rintro ⟨h, hm, hb⟩; exact ⟨h, hm, by simpa using hb⟩
    · rintro ⟨h, hm, hb⟩; exact ⟨h, hm, by simpa using hb⟩
  refine ⟨⟨rfl, ?_, rfl⟩, ?_, ?_, ?_⟩
  · simp only [deleteHomeHandler, decide_eq_true_eq]
    exact hcount
  · by_cases hex : ∃ h ∈ store, h.id = hid
    · have h1 : store.any (fun h => h.id == hid) = true := hany.mpr hex
      have h2 : ¬ store.countP (fun h => h.id == hid) = 0 := by
        have := hcount.mpr hex; omega
      simp [deleteHomeHandlerOld, h1, h2]
    · have h1 : store.any (fun h => h.id == hid) = false := by
        by_contra hc
        exact hex (hany.mp (by revert hc; cases store.any (fun h => h.id == hid) <;> simp))
      have h2 : store.countP (fun h => h.id == hid) = 0 := by
        by_contra hc
        exact hex (hcount.mp (by omega))
      simp [deleteHomeHandlerOld, h1, h2]
  · by_cases hex : ∃ h ∈ store, h.id = hid
    · have h2 : ¬ store.countP (fun h => h.id == hid) = 0 := by
        have := hcount.mpr hex; omega
      simp [deleteHomeHandlerOld, h2, hex]
    · have h2 : store.countP (fun h => h.id == hid) = 0 := by
        by_contra hc
        exact hex (hcount.mp (by omega))
      simp [deleteHomeHandlerOld, h2, hex]
  · by_cases h2 : store.countP (fun h => h.id == hid) = 0
    · have hall : ∀ h ∈ store, ¬ (h.id == hid) = true :=
        (List.countP_eq_zero).mp h2
      have : store.filter (fun h => !(h.id == hid)) = store := by
        apply List.filter_eq_self.mpr
        intro a ha
        simpa using hall a ha
      simp [deleteHomeHandlerOld, h2, this]
    · simp [deleteHomeHandlerOld, h2]

/-- C2: the claim requires `apiCache.clear()` after every successful Partner
write, but a successful partner creation does not clear the cache. -/
theorem c2_partner_create_counterexample :
    (createPartnerHandler [] demoPartnerInput "2025-01-01T00:00:00.000Z").status = 201 ∧
      (createPartnerHandler [] demoPartnerInput "2025-01-01T00:00:00.000Z").cacheCleared
        = false := by
  decide

/-- C2 (amended): every Home create/update/delete clears the whole cache on
its success path (delete clears even when nothing matched), while none of the
Partner handlers ever invokes `apiCache.clear()`. -/
theorem c2_cache_clear_amended :
    (∀ (store : List Home) (i : HomeInput) (now : String),
      (createHomeHandler store i now).cacheCleared = !jsFalsy i.name) ∧
    (∀ (store : List Home) (hid : String) (i : HomeInput) (now : String),
      (updateHomeHandler store hid i now).cacheCleared
        = store.any (fun h => h.id == hid)) ∧
    (∀ (store : List Home) (hid : String),
      (deleteHomeHandler store hid).cacheCleared = true) ∧
    (∀ (store : List Partner) (p : PartnerInput) (now : String),
      (createPartnerHandler store p now).cacheCleared = false) ∧
    (∀ (store : List Partner) (pid : String) (p : PartnerInput) (now : String),
      (updatePartnerHandler store pid p now).cacheCleared = false) ∧
    (∀ (store : List Partner) (pid : String),
      (deletePartnerHandler store pid).cacheCleared = false) := by
  refine ⟨?_, ?_, ?_, ?_, ?_, ?_⟩
  · intro store i now
    by_cases hf : jsFalsy i.name = true
    · simp [createHomeHandler, hf]
    · simp only [Bool.not_eq_true] at hf
      simp [createHomeHandler, hf]
  · intro store hid i now
    by_cases h2 : store.countP (fun h => h.id == hid) = 0
    · have hall : ∀ h ∈ store, ¬ (h.id == hid) = true :=
        (List.countP_eq_zero).mp h2
      have : store.any (fun h => h.id == hid) = false := by
        rw [List.any_eq_false]; intro a ha; simpa using hall a ha
      simp [updateHomeHandler, h2, this]
    · have : store.any (fun h => h.id == hid) = true := by
        rw [List.any_eq_true]
        have := countP_pos_iff_mem.mp (Nat.pos_of_ne_zero h2)
        exact this
      simp [updateHomeHandler, h2, this]
  · intro store hid; rfl
  · intro store p now
    by_cases hf : jsFalsy p.name = true
    · simp [createPartnerHandler, hf]
    · simp only [Bool.not_eq_true] at hf
      by_cases hdup : store.any (fun x =>
          x.id == (if jsFalsy p.id then partnerIdOf (p.name.getD "") else p.id.getD "")) = true
      · simp [createPartnerHandler, hf, hdup]
      · simp only [Bool.not_eq_true] at hdup
        simp [createPartnerHandler, hf, hdup]
  · intro store pid p now
    by_cases h2 : store.countP (fun x => x.id == pid) = 0
    · simp [updatePartnerHandler, h2]
    · simp [updatePartnerHandler, h2]
  · intro store pid; rfl

/-- C8: the tag filter lowers both the column and the parameter, so two tag
strings with the same lowering produce identical list responses on every
store. -/
theorem c8_tag_case_insensitive (store : List Home) (q : ListQuery)
    (t t2 : String) (hl : lowerL t.data = lowerL t2.data) :
    queryHomes store { q with tag := t } = queryHomes store { q with tag := t2 } := by
  have hlen : t.data.length = t2.data.length := by
    have := congrArg List.length hl
    simpa [lowerL] using this
  have hempty : (t == "") = (t2 == "") := by
    rcases ht : t.data with _ | ⟨c, cs⟩
    · have h2 : t2.data = [] := by
        rw [ht] at hlen
        exact List.length_eq_zero.mp hlen.symm
      have e1 : t = "" := (str_empty_iff t).mpr ht
      have e2 : t2 = "" := (str_empty_iff t2).mpr h2
      rw [e1, e2]
    · have h1 : ¬ t = "" := by
        intro hh; rw [(str_empty_iff t).mp hh] at ht; exact (List.cons_ne_nil c cs) ht.symm
      have h2 : ¬ t2 = "" := by
        intro hh
        rw [(str_empty_iff t2).mp hh] at hlen
        rw [ht] at hlen
        simp at hlen
      simp [h1, h2]
  have hfl : ∀ f : Option String, fieldLike t f = fieldLike t2 f := by
    intro f
    cases f with
    | none => rfl
    | some s => simp only [fieldLike, hl]
  have hfilter : store.filter (homeFilter { q with tag := t }) =
      store.filter (homeFilter { q with tag := t2 }) := by
    apply List.filter_congr
    intro h _
    simp only [homeFilter, hempty, hfl]
  simp only [queryHomes, hfilter]

/-- C8 witness: `tag=Revolutionary` and `tag=revolutionary` coincide on the
sample table. -/
theorem c8_tag_witness :
    queryHomes demoStore { q0 with tag := "Revolutionary" } =
      queryHomes demoStore { q0 with tag := "revolutionary" } :=
  c8_tag_case_insensitive demoStore q0 "Revolutionary" "revolutionary" (by decide)

/-- Ceiling-division characterization used for `totalPages`. -/
theorem ceil_div_bounds (total L : Nat) (hL : 1 ≤ L) :
    total ≤ ((total + L - 1) / L) * L ∧ ((total + L - 1) / L) * L < total + L := by
  constructor
  · rcases Nat.eq_zero_or_pos total with h0 | hpos
    · simp [h0]
    · have hL0 : 0 < L := hL
      obtain ⟨n, rfl⟩ : ∃ n, total = n + 1 := ⟨total - 1, by omega⟩
      have harg : n + 1 + L - 1 = n + L := by omega
      have hdiv : (n + L) / L = n / L + 1 := Nat.add_div_right n hL0
      have hlt : n / L < (n + 1 + L - 1) / L := by
        rw [harg, hdiv]; omega
      have := (Nat.div_lt_iff_lt_mul hL0).mp hlt
      omega
  · have := Nat.div_mul_le_self (total + L - 1) L
    omega

/-- C4: for validated `page ≥ 1` and `limit ≥ 1`, with `L` the effective
limit `min limit 20`: at most `L` rows are returned, `totalPages` is the
ceiling of `total / L` (characterized by its two bounds), the page is the
`OFFSET (page-1)*L LIMIT L` slice of the sorted filtered rows, and an offset
at or past `total` yields an empty (non-error) page. -/
theorem c4_pagination (store : List Home) (q : ListQuery)
    (_hp : 1 ≤ q.page) (hl : 1 ≤ q.limit) :
    (queryHomes store q).data.length ≤ min q.limit 20 ∧
    (queryHomes store q).pagination.total ≤
      (queryHomes store q).pagination.totalPages * min q.limit 20 ∧
    (queryHomes store q).pagination.totalPages * min q.limit 20 <
      (queryHomes store q).pagination.total + min q.limit 20 ∧
    (queryHomes store q).data =
      (((sortByName (store.filter (homeFilter q))).drop
          ((q.page - 1) * min q.limit 20)).take (min q.limit 20)).map
        rowToHomeList ∧
    ((queryHomes store q).pagination.total ≤ (q.page - 1) * min q.limit 20 →
      (queryHomes store q).data = []) := by
  have hL : 1 ≤ min q.limit 20 := le_min hl (by norm_num)
  have hdata : (queryHomes store q).data =
      (((sortByName (store.filter (homeFilter q))).drop
          ((q.page - 1) * min q.limit 20)).take (min q.limit 20)).map
        rowToHomeList := rfl
  have htot : (queryHomes store q).pagination.total =
      (store.filter (homeFilter q)).length := rfl
  have htp : (queryHomes store q).pagination.totalPages =
      ((store.filter (homeFilter q)).length + min q.limit 20 - 1) /
        min q.limit 20 := rfl
  obtain ⟨hb1, hb2⟩ :=
    ceil_div_bounds (store.filter (homeFilter q)).length (min q.limit 20) hL
  refine ⟨?_, ?_, ?_, hdata, ?_⟩
  · rw [hdata, List.length_map, List.length_take]
    exact Nat.min_le_left _ _
  · rw [htot, htp]; exact hb1
  · rw [htot, htp]; exact hb2
  · intro hoff
    rw [htot] at hoff
    have hsortlen : (sortByName (store.filter (homeFilter q))).length =
        (store.filter (homeFilter q)).length := by
      unfold sortByName; exact List.length_insertionSort _ _
    have hdrop : (sortByName (store.filter (homeFilter q))).drop
        ((q.page - 1) * min q.limit 20) = [] := by
      rw [List.drop_eq_nil_iff, hsortlen]
      exact hoff
    rw [hdata, hdrop]
    simp

/-- C4 witness: page 2 with limit 2 over the three-record sample table. -/
theorem c4_pagination_witness :
    (queryHomes demoStore qPage2).data.length ≤ min qPage2.limit 20 ∧
    (queryHomes demoStore qPage2).pagination.total ≤
      (queryHomes demoStore qPage2).pagination.totalPages * min qPage2.limit 20 ∧
    (queryHomes demoStore qPage2).pagination.totalPages * min qPage2.limit 20 <
      (queryHomes demoStore qPage2).pagination.total + min qPage2.limit 20 ∧
    (queryHomes demoStore qPage2).data =
      (((sortByName (demoStore.filter (homeFilter qPage2))).drop
          ((qPage2.page - 1) * min qPage2.limit 20)).take
        (min qPage2.limit 20)).map rowToHomeList ∧
    ((queryHomes demoStore qPage2).pagination.total ≤
        (qPage2.page - 1) * min qPage2.limit 20 →
      (queryHomes demoStore qPage2).data = []) :=
  c4_pagination demoStore qPage2 (by decide) (by decide)

/-- JS `Map.get` after appending a fresh entry whose key was absent. -/
theorem assocFind_append_single {α : Type} (l : List (String × CacheEntry α))
    (k : String) (v : CacheEntry α)
    (h : ∀ p ∈ l, ¬ (p.1 == k) = true) :
    assocFind (l ++ [(k, v)]) k = some v := by
  induction l with
  | nil => simp [assocFind]
  | cons p t ih =>
    have hp := h p (by simp)
    have hrest : ∀ x ∈ t, ¬ (x.1 == k) = true := fun x hx => h x (by simp [hx])
    simp only [List.cons_append, assocFind, List.find?]
    rw [show (p.1 == k) = false from by simpa using hp]
    have := ih hrest
    simpa [assocFind] using this

/-- JS `Map.set` on a present key overwrites in place; lookup then sees the
new value. -/
theorem assocFind_map_replace {α : Type} (l : List (String × CacheEntry α))
    (k : String) (v : CacheEntry α)
    (h : l.any (fun p => p.1 == k) = true) :
    assocFind (l.map (fun p => if p.1 == k then (k, v) else p)) k = some v := by
  induction l with
  | nil => simp at h
  | cons p t ih =>
    rw [List.map_cons]
    by_cases hp : (p.1 == k) = true
    · rw [if_pos hp]
      unfold assocFind
      rw [List.find?_cons_of_pos _ (by simp)]
    · have ht : t.any (fun p => p.1 == k) = true := by
        rcases List.any_eq_true.mp h with ⟨x, hx, hxk⟩
        rcases List.mem_cons.mp hx with rfl | hxt
        · exact absurd hxk hp
        · exact List.any_eq_true.mpr ⟨x, hxt, hxk⟩
      rw [if_neg hp]
      unfold assocFind
      rw [List.find?_cons_of_neg _ (by simpa using hp)]
      exact ih ht

/-- `set` followed by `get` of the same key finds the stored entry. -/
theorem assocFind_assocSet {α : Type} (l : List (String × CacheEntry α))
    (k : String) (v : CacheEntry α) : assocFind (assocSet l k v) k = some v := by
  unfold assocSet
  by_cases hany : l.any (fun p => p.1 == k) = true
  · rw [if_pos hany]; exact assocFind_map_replace l k v hany
  · rw [if_neg hany]
    apply assocFind_append_single
    intro p hp hpk
    exact hany (List.any_eq_true.mpr ⟨p, hp, hpk⟩)

/-- Deleting a key makes its lookup miss. -/
theorem assocFind_filter_ne {α : Type} (l : List (String × CacheEntry α))
    (k : String) :
    assocFind (l.filter (fun p => !(p.1 == k))) k = none := by
  unfold assocFind
  have : (l.filter (fun p => !(p.1 == k))).find? (fun p => p.1 == k) = none := by
    rw [List.find?_eq_none]
    intro x hx
    have hmem := (List.mem_filter.mp hx).2
    simp only [Bool.not_eq_true'] at hmem
    simp [hmem]
  rw [this]

/-- A `get` miss reports the untouched (or expiry-pruned) cache. -/
theorem cacheGet_of_find_none {α : Type} (c : ApiCache α) (now : Int)
    (k : String) (h : assocFind c.data k = none) :
    cacheGet c now k = (none, c) := by
  simp [cacheGet, h]

/-- After a `get` miss, the key is absent from the returned cache state. -/
theorem cacheGet_fst_none_find {α : Type} (c : ApiCache α) (now : Int)
    (k : String) (h : (cacheGet c now k).1 = none) :
    assocFind (cacheGet c now k).2.data k = none := by
  rcases hf : assocFind c.data k with _ | item
  · simp [cacheGet, hf]
  · by_cases he : now > item.e
    · simp only [cacheGet, hf, he, if_true]
      exact assocFind_filter_ne c.data k
    · simp [cacheGet, hf, he] at h

/-- The entry just stored by `cacheSet`. -/
theorem cacheSet_find {α : Type} (c : ApiCache α) (now : Int) (k : String)
    (v : α) (ttl : Int) :
    assocFind (cacheSet c now k v ttl).data k = some ⟨v, now + ttl * 1000⟩ := by
  unfold cacheSet
  exact assocFind_assocSet _ k _

/-- A `get` within the TTL window of a `set` is a hit on the stored value. -/
theorem cacheGet_set_hit {α : Type} (c : ApiCache α) (now now2 : Int)
    (k : String) (v : α) (ttl : Int) (h : now2 ≤ now + ttl * 1000) :
    (cacheGet (cacheSet c now k v ttl) now2 k).1 = some v := by
  have hf := cacheSet_find c now k v ttl
  have hng : ¬ now2 > (⟨v, now + ttl * 1000⟩ : CacheEntry α).e := by
    simp only [not_lt]; exact h
  simp [cacheGet, hf, hng]

/-- C9: on a cache miss the list handler computes the fresh response; the
response is stored if and only if it has data or the request carried a search
or tag filter; and after an unfiltered empty result the very next identical
query recomputes against the then-current store. -/
theorem c9_empty_uncached (cache : ApiCache ListResponse) (now : Int)
    (store : List Home) (q : ListQuery)
    (hmiss : (cacheGet cache now (listKey q)).1 = none) :
    (handleGetHomes cache now store q).1 = queryHomes store q ∧
    (assocFind (handleGetHomes cache now store q).2.data (listKey q) = none ↔
      ((queryHomes store q).data = [] ∧ q.search = "" ∧ q.tag = "")) ∧
    (∀ (now2 : Int) (store2 : List Home),
      (queryHomes store q).data = [] → q.search = "" → q.tag = "" →
      (handleGetHomes (handleGetHomes cache now store q).2 now2 store2 q).1 =
        queryHomes store2 q) := by
  have hpair : cacheGet cache now (listKey q) =
      (none, (cacheGet cache now (listKey q)).2) :=
    Prod.ext_iff.mpr ⟨hmiss, rfl⟩
  have hfind1 : assocFind (cacheGet cache now (listKey q)).2.data (listKey q)
      = none := cacheGet_fst_none_find cache now (listKey q) hmiss
  by_cases hinit : ((queryHomes store q).data.isEmpty && q.search == ""
      && q.tag == "") = true
  · have hred : handleGetHomes cache now store q =
        (queryHomes store q, (cacheGet cache now (listKey q)).2) := by
      unfold handleGetHomes
      rw [hpair]
      dsimp only
      rw [if_pos hinit]
    obtain ⟨⟨hd, hs⟩, htag⟩ : (((queryHomes store q).data.isEmpty = true ∧
        (q.search == "") = true) ∧ (q.tag == "") = true) := by
      have h1 := Bool.and_eq_true_iff.mp hinit
      exact ⟨Bool.and_eq_true_iff.mp h1.1, h1.2⟩
    refine ⟨by rw [hred], ?_, ?_⟩
    · rw [hred]
      simp only [hfind1, true_iff]
      exact ⟨List.isEmpty_iff.mp hd, by simpa using hs, by simpa using htag⟩
    · intro now2 store2 _ _ _
      rw [hred]
      have hmiss2 : cacheGet (cacheGet cache now (listKey q)).2 now2 (listKey q)
          = (none, (cacheGet cache now (listKey q)).2) :=
        cacheGet_of_find_none _ now2 (listKey q) hfind1
      unfold handleGetHomes
      rw [hmiss2]
      dsimp only
      by_cases h2 : ((queryHomes store2 q).data.isEmpty && q.search == ""
          && q.tag == "") = true
      · rw [if_pos h2]
      · rw [if_neg h2]
  · have hred : handleGetHomes cache now store q =
        (queryHomes store q,
          cacheSet (cacheGet cache now (listKey q)).2 now (listKey q)
            (queryHomes store q) 30) := by
      unfold handleGetHomes
      rw [hpair]
      dsimp only
      rw [if_neg hinit]
    refine ⟨by rw [hred], ?_, ?_⟩
    · rw [hred]
      have hsome := cacheSet_find (cacheGet cache now (listKey q)).2 now
        (listKey q) (queryHomes store q) 30
      simp only [hsome]
      constructor
      · intro h; exact absurd h (by simp)
      · rintro ⟨hd, hs, ht⟩
        exfalso
        apply hinit
        have : (queryHomes store q).data.isEmpty = true := by
          rw [List.isEmpty_iff]; exact hd
        simp [this, hs, ht]
    · intro now2 store2 hd hs ht
      exfalso
      apply hinit
      have : (queryHomes store q).data.isEmpty = true := by
        rw [List.isEmpty_iff]; exact hd
      simp [this, hs, ht]

/-- C9 witness: an unfiltered query over the empty table is not cached, and a
record inserted before the next identical query is visible to it. -/
theorem c9_witness :
    (handleGetHomes (handleGetHomes (emptyCache ListResponse) 0
        ([] : List Home) q0).2 1 [demoLevski] q0).1 = queryHomes [demoLevski] q0 :=
  (c9_empty_uncached (emptyCache ListResponse) 0 [] q0 rfl).2.2 1 [demoLevski]
    rfl rfl rfl

/-- C10: the cache key of `GET /api/calendar/today` is the constant
`'calendar_today'`; within one TTL window a second today-query gets the first
response verbatim even under a different `year` override. -/
theorem c10_today_cache_ignores_year (cache : ApiCache (List CalEvent))
    (now1 now2 : Int) (store : List Home) (md : String) (y1 y2 : Int)
    (hmiss : (cacheGet cache now1 "calendar_today").1 = none)
    (ht : now2 ≤ now1 + 300 * 1000) :
    (handleCalendarToday (handleCalendarToday cache now1 store md y1).2 now2
        store md y2).1 =
      (handleCalendarToday cache now1 store md y1).1 := by
  have hpair : cacheGet cache now1 "calendar_today" =
      (none, (cacheGet cache now1 "calendar_today").2) :=
    Prod.ext_iff.mpr ⟨hmiss, rfl⟩
  have hred : handleCalendarToday cache now1 store md y1 =
      (calendarToday store md y1,
        cacheSet (cacheGet cache now1 "calendar_today").2 now1 "calendar_today"
          (calendarToday store md y1) 300) := by
    unfold handleCalendarToday
    rw [hpair]
  rw [hred]
  have hhit : (cacheGet (cacheSet (cacheGet cache now1 "calendar_today").2 now1
      "calendar_today" (calendarToday store md y1) 300) now2 "calendar_today").1
      = some (calendarToday store md y1) :=
    cacheGet_set_hit _ now1 now2 "calendar_today" _ 300 ht
  have hpair2 : cacheGet (cacheSet (cacheGet cache now1 "calendar_today").2 now1
      "calendar_today" (calendarToday store md y1) 300) now2 "calendar_today" =
      (some (calendarToday store md y1),
        (cacheGet (cacheSet (cacheGet cache now1 "calendar_today").2 now1
          "calendar_today" (calendarToday store md y1) 300) now2
            "calendar_today").2) :=
    Prod.ext_iff.mpr ⟨hhit, rfl⟩
  unfold handleCalendarToday
  rw [hpair2]

/-- Unfolding of `noWild` over a cons cell. -/
theorem noWild_cons (a : Char) (p : List Char) :
    noWild (a :: p) = true ↔ ¬ a = '%' ∧ ¬ a = '_' ∧ noWild p = true := by
  simp [noWild, List.all_cons, not_or, and_assoc]

/-- Pointwise congruence for `List.any`. -/
theorem any_congr_of_eq {α : Type} (l : List α) (f g : α → Bool)
    (h : ∀ x ∈ l, f x = g x) : l.any f = l.any g := by
  induction l with
  | nil => rfl
  | cons a t ih =>
    simp only [List.any_cons, h a (by simp)]
    rw [ih (fun x hx => h x (by simp [hx]))]

/-- `hasSubstr` is "some suffix has the pattern as a prefix". -/
theorem hasSubstr_eq_tails (p : List Char) :
    ∀ s, hasSubstr p s = s.tails.any (isPre p) := by
  intro s
  induction s with
  | nil => simp [hasSubstr, isPre]
  | cons c t ih => simp [hasSubstr, ih]

/-- A lone `%` pattern matches every string. -/
theorem likeMatch_pct_all (s : List Char) : likeMatch ['%'] s = true := by
  induction s with
  | nil => simp [likeMatch]
  | cons c t ih =>
    simp only [likeMatch] at ih ⊢
    simp [ih]

/-- A wildcard-free literal followed by `%` matches exactly the strings it
prefixes. -/
theorem likeMatch_lit_pct (p : List Char) (hp : noWild p = true) :
    ∀ s, likeMatch (p ++ ['%']) s = isPre p s := by
  induction p with
  | nil => intro s; simp [isPre, likeMatch_pct_all s]
  | cons a p2 ih =>
    obtain ⟨ha1, ha2, hrest⟩ := (noWild_cons a p2).mp hp
    intro s
    have hpc : (a == '%') = false := by simpa using ha1
    have huc : (a == '_') = false := by simpa using ha2
    cases s with
    | nil => simp [likeMatch, isPre, hpc]
    | cons c t =>
      simp only [List.cons_append, likeMatch, hpc, Bool.false_eq_true, if_false,
        huc, Bool.false_or, isPre]
      rw [show p2.append ['%'] = p2 ++ ['%'] from rfl, ih hrest t]

/-- `'%' ++ p ++ '%'` for wildcard-free `p` is substring containment: the
meaning of the code's `LIKE '%' + word + '%'` parameters. -/
theorem likeMatch_contains (p : List Char) (hp : noWild p = true) :
    ∀ s, likeMatch ('%' :: (p ++ ['%'])) s = hasSubstr p s := by
  intro s
  have h1 : likeMatch ('%' :: (p ++ ['%'])) s = s.tails.any (likeMatch (p ++ ['%'])) := by
    simp [likeMatch]
  rw [h1, hasSubstr_eq_tails]
  exact any_congr_of_eq _ _ _ (fun t _ => likeMatch_lit_pct p hp t)

/-- ASCII lowering maps no character onto a `LIKE` wildcard. -/
theorem toLower_preserves_noWild (c : Char) (h1 : ¬ c = '%') (h2 : ¬ c = '_') :
    ¬ c.toLower = '%' ∧ ¬ c.toLower = '_' := by
  simp only [Char.toLower]
  split
  · next hcond =>
    obtain ⟨hlo, hhi⟩ := hcond
    set n := c.toNat with hn
    interval_cases n <;> exact ⟨by decide, by decide⟩
  · exact ⟨h1, h2⟩

/-- Lowering preserves wildcard-freeness. -/
theorem lowerL_noWild (l : List Char) (h : noWild l = true) :
    noWild (lowerL l) = true := by
  induction l with
  | nil => rfl
  | cons a t ih =>
    obtain ⟨h1, h2, h3⟩ := (noWild_cons a t).mp h
    obtain ⟨g1, g2⟩ := toLower_preserves_noWild a h1 h2
    rw [lowerL, List.map_cons]
    exact (noWild_cons a.toLower (lowerL t)).mpr ⟨g1, g2, ih h3⟩

/-- Pointwise congruence for `List.all`. -/
theorem all_congr_of_eq {α : Type} (l : List α) (f g : α → Bool)
    (h : ∀ x ∈ l, f x = g x) : l.all f = l.all g := by
  induction l with
  | nil => rfl
  | cons a t ih =>
    simp only [List.all_cons, h a (by simp)]
    rw [ih (fun x hx => h x (by simp [hx]))]

/-- For a wildcard-free word the `LIKE` clause is exactly the spec's
case-insensitive substring containment. -/
theorem fieldLike_eq_specFieldHas (w : String) (hw : noWild w.data = true)
    (f : Option String) : fieldLike w f = specFieldHas w f := by
  cases f with
  | none => rfl
  | some s =>
    unfold fieldLike specFieldHas
    exact likeMatch_contains (lowerL w.data) (lowerL_noWild w.data hw)
      (lowerL s.data)

/-- C3: the claim reads every search word as a case-insensitive substring
test, but the code passes the word into a SQL `LIKE` pattern, so a word
carrying a `LIKE` wildcard diverges: searching `v_sil` matches the record
named `Vasil Levski` although `v_sil` is not a substring of any field. -/
theorem c3_wildcard_counterexample :
    (queryHomes [demoLevski] qWild).data ≠
      ([demoLevski].filter (claimSearchFilter qWild)).map rowToHomeList := by
  decide

/-- C3 (amended): for every non-empty search whose words are free of the SQL
`LIKE` wildcards `%` and `_`, the filtered set is exactly the records where
every word substring-matches (case-insensitively) the name in `name` mode, or
name OR biography OR address OR tags otherwise — AND across words, OR across
fields. -/
theorem c3_search_semantics (store : List Home) (q : ListQuery)
    (hs : ¬ q.search = "")
    (hw : ∀ w ∈ searchWords q.search, noWild w.data = true) :
    store.filter (homeFilter q) = store.filter (claimSearchFilter q) := by
  apply List.filter_congr
  intro h _
  unfold homeFilter claimSearchFilter
  have hsb : (q.search == "") = false := by simpa using hs
  rw [hsb]
  simp only [Bool.false_or]
  have hall : (searchWords q.search).all (wordMatches q.searchMode h) =
      (searchWords q.search).all (specWordHit q.searchMode h) := by
    apply all_congr_of_eq
    intro w hwmem
    unfold wordMatches specWordHit
    simp only [fieldLike_eq_specFieldHas w (hw w hwmem)]
  rw [hall]

/-- C3 witness: the spec's own two-word example `vasil karlovo` (wildcard
free) filters identically under the code's clause and the substring
reading — keeping Levski, dropping Botev. -/
theorem c3_search_witness :
    [demoLevski, demoBotev].filter (homeFilter qWords) =
      [demoLevski, demoBotev].filter (claimSearchFilter qWords) :=
  c3_search_semantics [demoLevski, demoBotev] qWords (by decide) (by decide)

/-- Numeric bounds of an ASCII digit. -/
theorem isDig_bounds (c : Char) (h : isDig c = true) :
    48 ≤ c.toNat ∧ c.toNat ≤ 57 := by
  simpa [isDig, Bool.and_eq_true, decide_eq_true_eq] using h

/-- A digit never equals the hyphen. -/
theorem dash_beq_dig (c : Char) (hc : isDig c = true) :
    (('-' : Char) == c) = false := by
  obtain ⟨hlo, _⟩ := isDig_bounds c hc
  rw [beq_eq_false_iff_ne]
  intro hEq
  rw [← hEq] at hlo
  exact absurd hlo (by decide)

/-- Destructure a string of the `YYYY-MM-DD` shape into its characters. -/
theorem ymdShape_elim (l : List Char) (h : ymdShape l = true) :
    ∃ y1 y2 y3 y4 m1 m2 d1 d2,
      l = [y1, y2, y3, y4, '-', m1, m2, '-', d1, d2] ∧
        isDig y1 = true ∧ isDig y2 = true ∧ isDig y3 = true ∧ isDig y4 = true ∧
        isDig m1 = true ∧ isDig m2 = true ∧ isDig d1 = true ∧ isDig d2 = true := by
  rcases l with _ | ⟨y1, l⟩
  · exact absurd h (by simp [ymdShape])
  rcases l with _ | ⟨y2, l⟩
  · exact absurd h (by simp [ymdShape])
  rcases l with _ | ⟨y3, l⟩
  · exact absurd h (by simp [ymdShape])
  rcases l with _ | ⟨y4, l⟩
  · exact absurd h (by simp [ymdShape])
  rcases l with _ | ⟨s1, l⟩
  · exact absurd h (by simp [ymdShape])
  rcases l with _ | ⟨m1, l⟩
  · exact absurd h (by simp [ymdShape])
  rcases l with _ | ⟨m2, l⟩
  · exact absurd h (by simp [ymdShape])
  rcases l with _ | ⟨s2, l⟩
  · exact absurd h (by simp [ymdShape])
  rcases l with _ | ⟨d1, l⟩
  · exact absurd h (by simp [ymdShape])
  rcases l with _ | ⟨d2, l⟩
  · exact absurd h (by simp [ymdShape])
  rcases l with _ | ⟨c, rest⟩
  · unfold ymdShape at h
    simp only [Bool.and_eq_true] at h
    obtain ⟨⟨⟨⟨⟨⟨⟨⟨⟨hg1, hg2⟩, hg3⟩, hg4⟩, hb1⟩, hg5⟩, hg6⟩, hb2⟩, hg7⟩, hg8⟩ := h
    have hs1 : s1 = '-' := eq_of_beq hb1
    have hs2 : s2 = '-' := eq_of_beq hb2
    exact ⟨y1, y2, y3, y4, m1, m2, d1, d2, by rw [hs1, hs2], hg1, hg2, hg3,
      hg4, hg5, hg6, hg7, hg8⟩
  · exact absurd h (by simp [ymdShape])

/-- Character decomposition of a calendar-valid date string. -/
theorem valid_decomp (d : String) (h : validYMD d = true) :
    ∃ y1 y2 y3 y4 m1 m2 d1 d2,
      d.data = [y1, y2, y3, y4, '-', m1, m2, '-', d1, d2] ∧
        isDig y1 = true ∧ isDig y2 = true ∧ isDig y3 = true ∧ isDig y4 = true ∧
        isDig m1 = true ∧ isDig m2 = true ∧ isDig d1 = true ∧ isDig d2 = true := by
  apply ymdShape_elim
  simp only [validYMD, sqlDateOk, Bool.and_eq_true, decide_eq_true_eq] at h
  tauto

/-- The `strftime('%m-%d')` view of a valid date is its month-day substring. -/
theorem strftimeMD_of_valid (d : String) (h : validYMD d = true) :
    strftimeMD d = some (monthDaySub d) := by
  unfold strftimeMD monthDaySub
  rw [if_pos h]

/-- The `strftime('%m')` view of a valid date is its month substring. -/
theorem strftimeM_of_valid (d : String) (h : validYMD d = true) :
    strftimeM d = some (monthSub d) := by
  unfold strftimeM monthSub
  rw [if_pos h]

/-- On a valid date, JS `substring(5)` and the claim's positions-5-9
substring coincide. -/
theorem monthDaySub_eq_drop (d : String) (h : validYMD d = true) :
    monthDaySub d = String.mk (d.data.drop 5) := by
  obtain ⟨y1, y2, y3, y4, m1, m2, d1, d2, hd, _⟩ := valid_decomp d h
  simp [monthDaySub, hd]

/-- `viewYear - getFullYear()` of a valid date, as an `Int`. -/
theorem yearsAgo_of_valid (y : Int) (d : String) (h : validYMD d = true) :
    yearsAgo y d = some (y - (yearVal d.data : Int)) := by
  unfold yearsAgo jsGetFullYear
  rw [if_pos h]
  rfl

/-- The birth date of a record with valid dates is valid. -/
theorem homeDatesValid_birth (h : Home) (d : String)
    (hv : homeDatesValid h = true) (hbd : h.birth_date = some d) :
    validYMD d = true := by
  obtain ⟨h1, _⟩ := Bool.and_eq_true_iff.mp hv
  rw [hbd] at h1
  simpa [optValidYMD] using h1

/-- The death date of a record with valid dates is valid. -/
theorem homeDatesValid_death (h : Home) (d : String)
    (hv : homeDatesValid h = true) (hdd : h.death_date = some d) :
    validYMD d = true := by
  obtain ⟨_, h1⟩ := Bool.and_eq_true_iff.mp hv
  rw [hdd] at h1
  simpa [optValidYMD] using h1

/-- `String(n).padStart(2,'0')` inverts the two-digit reading. -/
theorem pad2_digits (c1 c2 : Char) (h1 : isDig c1 = true) (h2 : isDig c2 = true) :
    pad2 (digVal c1 * 10 + digVal c2) = String.mk [c1, c2] := by
  obtain ⟨hlo1, hhi1⟩ := isDig_bounds c1 h1
  obtain ⟨hlo2, hhi2⟩ := isDig_bounds c2 h2
  obtain ⟨a, ha, rfl⟩ : ∃ a, a ≤ 9 ∧ c1 = Char.ofNat (48 + a) := by
    refine ⟨c1.toNat - 48, by omega, ?_⟩
    rw [show 48 + (c1.toNat - 48) = c1.toNat from by omega, Char.ofNat_toNat]
  obtain ⟨b, hb, rfl⟩ : ∃ b, b ≤ 9 ∧ c2 = Char.ofNat (48 + b) := by
    refine ⟨c2.toNat - 48, by omega, ?_⟩
    rw [show 48 + (c2.toNat - 48) = c2.toNat from by omega, Char.ofNat_toNat]
  interval_cases a <;> interval_cases b <;> decide

/-- `getDate()` of a valid date, padded, is its day substring. -/
theorem jsDayPadded_of_valid (d : String) (h : validYMD d = true) :
    jsDayPadded d = daySub d := by
  obtain ⟨y1, y2, y3, y4, m1, m2, d1, d2, hd, _, _, _, _, _, _, k7, k8⟩ :=
    valid_decomp d h
  unfold jsDayPadded jsGetDate
  rw [if_pos h]
  rw [show dayVal d.data = digVal d1 * 10 + digVal d2 from by rw [hd]; rfl]
  show pad2 (digVal d1 * 10 + digVal d2) = daySub d
  rw [pad2_digits d1 d2 k7 k8]
  simp [daySub, hd]

/-- Boolean equality of characters is symmetric. -/
theorem char_beq_comm (x y : Char) : (x == y) = (y == x) := by
  by_cases h : x = y
  · subst h; rfl
  · rw [beq_eq_false_iff_ne.mpr h, beq_eq_false_iff_ne.mpr (Ne.symm h)]

/-- Componentwise reading of equality between two-character strings. -/
theorem str_two_beq (m1 m2 a b : Char) :
    (String.mk [m1, m2] == String.mk [a, b]) = (m1 == a && m2 == b) := by
  by_cases hm1 : m1 = a
  · subst hm1
    by_cases hm2 : m2 = b
    · subst hm2; simp
    · have hL : (String.mk [m1, m2] == String.mk [m1, b]) = false := by
        rw [beq_eq_false_iff_ne]
        intro hc
        have := congrArg String.data hc
        simp at this
        exact hm2 this
      rw [hL, beq_eq_false_iff_ne.mpr hm2]
      simp
  · have hL : (String.mk [m1, m2] == String.mk [a, b]) = false := by
      rw [beq_eq_false_iff_ne]
      intro hc
      have := congrArg String.data hc
      simp at this
      exact hm1 this.1
    rw [hL, beq_eq_false_iff_ne.mpr hm1]
    simp

/-- The `includes('-MM-')` test on a shaped date string reads exactly its
month characters (hyphens occur only at positions 4 and 7, so the only
possible occurrence is the month field). -/
theorem hasSubstr_dash (a b y1 y2 y3 y4 m1 m2 d1 d2 : Char)
    (_ha : isDig a = true) (_hb : isDig b = true)
    (h1 : isDig y1 = true) (h2 : isDig y2 = true) (h3 : isDig y3 = true)
    (h4 : isDig y4 = true) (h5 : isDig m1 = true) (h6 : isDig m2 = true)
    (h7 : isDig d1 = true) (h8 : isDig d2 = true) :
    hasSubstr ['-', a, b, '-'] [y1, y2, y3, y4, '-', m1, m2, '-', d1, d2]
      = (a == m1 && b == m2) := by
  have e1 := dash_beq_dig y1 h1
  have e2 := dash_beq_dig y2 h2
  have e3 := dash_beq_dig y3 h3
  have e4 := dash_beq_dig y4 h4
  have e5 := dash_beq_dig m1 h5
  have e6 := dash_beq_dig m2 h6
  have e7 := dash_beq_dig d1 h7
  have e8 := dash_beq_dig d2 h8
  simp [hasSubstr, isPre, e1, e2, e3, e4, e5, e6, e7, e8]

/-- The code's month test `date.includes('-' + mm + '-')` agrees with the
spec's positions-5-6 month-substring comparison on valid dates. -/
theorem month_cond_eq (mm : String) (a b : Char) (hmm : mm.data = [a, b])
    (ha : isDig a = true) (hb : isDig b = true) (d : String)
    (hval : validYMD d = true) :
    hasSubstr ('-' :: (mm.data ++ ['-'])) d.data = (monthSub d == mm) := by
  obtain ⟨y1, y2, y3, y4, m1, m2, d1, d2, hd, k1, k2, k3, k4, k5, k6, k7, k8⟩ :=
    valid_decomp d hval
  have hms : monthSub d = String.mk [m1, m2] := by simp [monthSub, hd]
  have hmmS : mm = String.mk [a, b] := String.ext (by rw [hmm])
  rw [hmm, hd]
  rw [show ('-' :: (([a, b] : List Char) ++ ['-'])) = ['-', a, b, '-'] from rfl]
  rw [hasSubstr_dash a b y1 y2 y3 y4 m1 m2 d1 d2 ha hb k1 k2 k3 k4 k5 k6 k7 k8]
  rw [hms, hmmS, str_two_beq, char_beq_comm m1 a, char_beq_comm m2 b]

/-- On a published row the today-scan emits exactly the spec's events when
its dates are valid: `substring(5)` equals the positions-5-9 substring. -/
theorem todayRow_spec_of_pub (md : String) (y : Int) (h : Home)
    (hv : homeDatesValid h = true) (hpub : (h.published == 1) = true) :
    todayRowEvents md y h = specTodayEvents md y h := by
  unfold todayRowEvents specTodayEvents
  rw [if_pos hpub]
  have hbirth : (match h.birth_date with
      | some d =>
        if String.mk (d.data.drop 5) == md then [mkEvent h "birth" d y] else []
      | none => ([] : List CalEvent)) =
      (match h.birth_date with
      | some d => if monthDaySub d == md then [mkEvent h "birth" d y] else []
      | none => ([] : List CalEvent)) := by
    cases hbd : h.birth_date with
    | none => rfl
    | some d =>
      have hval := homeDatesValid_birth h d hv hbd
      dsimp only
      rw [monthDaySub_eq_drop d hval]
  have hdeath : (match h.death_date with
      | some d =>
        if String.mk (d.data.drop 5) == md then [mkEvent h "death" d y] else []
      | none => ([] : List CalEvent)) =
      (match h.death_date with
      | some d => if monthDaySub d == md then [mkEvent h "death" d y] else []
      | none => ([] : List CalEvent)) := by
    cases hdd : h.death_date with
    | none => rfl
    | some d =>
      have hval := homeDatesValid_death h d hv hdd
      dsimp only
      rw [monthDaySub_eq_drop d hval]
  rw [hbirth, hdeath]

/-- A valid-dated row rejected by the today pre-filter emits nothing under
the spec reading either. -/
theorem specToday_nil_of_not_prefilter (md : String) (y : Int) (h : Home)
    (hv : homeDatesValid h = true) (hp : ¬ todayPrefilter md h = true) :
    specTodayEvents md y h = [] := by
  unfold specTodayEvents
  by_cases hpub : (h.published == 1) = true
  · rw [if_pos hpub]
    have hnb : ∀ d, h.birth_date = some d → ¬ (monthDaySub d == md) = true := by
      intro d hbd hc
      apply hp
      have heq : monthDaySub d = md := eq_of_beq hc
      have hval := homeDatesValid_birth h d hv hbd
      have : strftimeMDOpt h.birth_date = some md := by
        rw [hbd]
        simp [strftimeMDOpt, strftimeMD_of_valid d hval, heq]
      simp [todayPrefilter, hpub, this]
    have hnd : ∀ d, h.death_date = some d → ¬ (monthDaySub d == md) = true := by
      intro d hdd hc
      apply hp
      have heq : monthDaySub d = md := eq_of_beq hc
      have hval := homeDatesValid_death h d hv hdd
      have : strftimeMDOpt h.death_date = some md := by
        rw [hdd]
        simp [strftimeMDOpt, strftimeMD_of_valid d hval, heq]
      simp [todayPrefilter, hpub, this]
    have hb0 : (match h.birth_date with
        | some d => if monthDaySub d == md then [mkEvent h "birth" d y] else []
        | none => ([] : List CalEvent)) = [] := by
      cases hbd : h.birth_date with
      | none => rfl
      | some d =>
        dsimp only
        rw [if_neg (hnb d hbd)]
    have hd0 : (match h.death_date with
        | some d => if monthDaySub d == md then [mkEvent h "death" d y] else []
        | none => ([] : List CalEvent)) = [] := by
      cases hdd : h.death_date with
      | none => rfl
      | some d =>
        dsimp only
        rw [if_neg (hnd d hdd)]
    rw [hb0, hd0]
    rfl
  · rw [if_neg hpub]

/-- `GET /api/calendar/today` computes exactly the spec's day-level scan on a
store whose dates are valid. -/
theorem calendarToday_spec (store : List Home) (md : String) (y : Int)
    (hv : ∀ h ∈ store, homeDatesValid h = true) :
    calendarToday store md y = store.flatMap (specTodayEvents md y) := by
  unfold calendarToday
  induction store with
  | nil => rfl
  | cons h t ih =>
    have hvh := hv h (by simp)
    have hvt : ∀ x ∈ t, homeDatesValid x = true := fun x hx => hv x (by simp [hx])
    rw [List.flatMap_cons]
    by_cases hp : todayPrefilter md h = true
    · obtain ⟨hpub, _⟩ := Bool.and_eq_true_iff.mp hp
      rw [List.filter_cons_of_pos hp, List.flatMap_cons, ih hvt,
        todayRow_spec_of_pub md y h hvh hpub]
    · rw [List.filter_cons_of_neg hp, ih hvt,
        specToday_nil_of_not_prefilter md y h hvh hp, List.nil_append]

/-- On a published valid-dated row, the month-scan step equals folding the
spec's keyed pairs: the `includes('-MM-')` test reads the month substring,
and the computed key is the `"MM-DD"` of the matched date. -/
theorem monthRow_spec_of_pub (mm : String) (a b : Char) (hmm : mm.data = [a, b])
    (ha : isDig a = true) (hb : isDig b = true) (y : Int) (h : Home)
    (hv : homeDatesValid h = true) (hpub : (h.published == 1) = true) :
    ∀ events, monthRowEvents mm y h events =
      (specMonthPairs mm y h).foldl (fun es p => addEvent es p.1 p.2) events := by
  intro events
  cases hbd : h.birth_date with
  | none =>
    cases hdd : h.death_date with
    | none => simp [monthRowEvents, specMonthPairs, hbd, hdd, hpub]
    | some d =>
      have hval := homeDatesValid_death h d hv hdd
      have hcond := month_cond_eq mm a b hmm ha hb d hval
      have hkey := jsDayPadded_of_valid d hval
      by_cases hc : (monthSub d == mm) = true
      · simp [monthRowEvents, specMonthPairs, hbd, hdd, hpub, hcond, hkey, hc]
      · simp [monthRowEvents, specMonthPairs, hbd, hdd, hpub, hcond, hkey, hc]
  | some db =>
    have hvalb := homeDatesValid_birth h db hv hbd
    have hcondb := month_cond_eq mm a b hmm ha hb db hvalb
    have hkeyb := jsDayPadded_of_valid db hvalb
    cases hdd : h.death_date with
    | none =>
      by_cases hcb : (monthSub db == mm) = true
      · simp [monthRowEvents, specMonthPairs, hbd, hdd, hpub, hcondb, hkeyb, hcb]
      · simp [monthRowEvents, specMonthPairs, hbd, hdd, hpub, hcondb, hkeyb, hcb]
    | some dd =>
      have hvald := homeDatesValid_death h dd hv hdd
      have hcondd := month_cond_eq mm a b hmm ha hb dd hvald
      have hkeyd := jsDayPadded_of_valid dd hvald
      by_cases hcb : (monthSub db == mm) = true <;>
        by_cases hcd : (monthSub dd == mm) = true <;>
        simp [monthRowEvents, specMonthPairs, hbd, hdd, hpub, hcondb, hkeyb,
          hcb, hcondd, hkeyd, hcd]

/-- A valid-dated row rejected by the month pre-filter contributes no spec
pairs. -/
theorem specMonth_nil_of_not_prefilter (mm : String) (y : Int) (h : Home)
    (hv : homeDatesValid h = true) (hp : ¬ monthPrefilter mm h = true) :
    specMonthPairs mm y h = [] := by
  unfold specMonthPairs
  by_cases hpub : (h.published == 1) = true
  · rw [if_pos hpub]
    have hnb : ∀ d, h.birth_date = some d → ¬ (monthSub d == mm) = true := by
      intro d hbd hc
      apply hp
      have heq : monthSub d = mm := eq_of_beq hc
      have hval := homeDatesValid_birth h d hv hbd
      have : strftimeMOpt h.birth_date = some mm := by
        rw [hbd]
        simp [strftimeMOpt, strftimeM_of_valid d hval, heq]
      simp [monthPrefilter, hpub, this]
    have hnd : ∀ d, h.death_date = some d → ¬ (monthSub d == mm) = true := by
      intro d hdd hc
      apply hp
      have heq : monthSub d = mm := eq_of_beq hc
      have hval := homeDatesValid_death h d hv hdd
      have : strftimeMOpt h.death_date = some mm := by
        rw [hdd]
        simp [strftimeMOpt, strftimeM_of_valid d hval, heq]
      simp [monthPrefilter, hpub, this]
    have hb0 : (match h.birth_date with
        | some d =>
          if monthSub d == mm then
            [(mm ++ "-" ++ daySub d, mkEvent h "birth" d y)] else []
        | none => ([] : List (String × CalEvent))) = [] := by
      cases hbd : h.birth_date with
      | none => rfl
      | some d =>
        dsimp only
        rw [if_neg (hnb d hbd)]
    have hd0 : (match h.death_date with
        | some d =>
          if monthSub d == mm then
            [(mm ++ "-" ++ daySub d, mkEvent h "death" d y)] else []
        | none => ([] : List (String × CalEvent))) = [] := by
      cases hdd : h.death_date with
      | none => rfl
      | some d =>
        dsimp only
        rw [if_neg (hnd d hdd)]
    rw [hb0, hd0]
    rfl
  · rw [if_neg hpub]

/-- `GET /api/calendar` computes exactly the spec's grouped month-level scan
on a store whose dates are valid. -/
theorem calendarMonth_spec (store : List Home) (mm : String) (a b : Char)
    (hmm : mm.data = [a, b]) (ha : isDig a = true) (hb : isDig b = true)
    (y : Int) (hv : ∀ h ∈ store, homeDatesValid h = true) :
    calendarMonth store mm y = specGroup (store.flatMap (specMonthPairs mm y)) := by
  have hgen : ∀ (st : List Home), (∀ x ∈ st, homeDatesValid x = true) →
      ∀ events, (st.filter (monthPrefilter mm)).foldl
          (fun es h => monthRowEvents mm y h es) events =
        (st.flatMap (specMonthPairs mm y)).foldl
          (fun es p => addEvent es p.1 p.2) events := by
    intro st
    induction st with
    | nil => intro _ _; rfl
    | cons h t ih =>
      intro hvv events
      have hvh := hvv h (by simp)
      have hvt : ∀ x ∈ t, homeDatesValid x = true :=
        fun x hx => hvv x (by simp [hx])
      rw [List.flatMap_cons, List.foldl_append]
      by_cases hp : monthPrefilter mm h = true
      · obtain ⟨hpub, _⟩ := Bool.and_eq_true_iff.mp hp
        rw [List.filter_cons_of_pos hp, List.foldl_cons,
          monthRow_spec_of_pub mm a b hmm ha hb y h hvh hpub events]
        exact ih hvt _
      · rw [List.filter_cons_of_neg hp,
          specMonth_nil_of_not_prefilter mm y h hvh hp]
        exact ih hvt events
  exact hgen store hv []

/-- C5: on a store of calendar-valid dates, the day-level endpoint emits
exactly the records whose month-day substring (positions 5-9) equals the
target month-day, as a flat list; the month-level endpoint emits exactly the
records whose month substring (positions 5-6) equals the target month,
grouped into a mapping keyed by the `"MM-DD"` of the matched date. -/
theorem c5_calendar_match (store : List Home) (md mm : String) (y : Int)
    (hv : ∀ h ∈ store, homeDatesValid h = true)
    (hmm : ∃ a b, mm.data = [a, b] ∧ isDig a = true ∧ isDig b = true) :
    calendarToday store md y = store.flatMap (specTodayEvents md y) ∧
    calendarMonth store mm y = specGroup (store.flatMap (specMonthPairs mm y)) := by
  obtain ⟨a, b, h1, h2, h3⟩ := hmm
  exact ⟨calendarToday_spec store md y hv,
    calendarMonth_spec store mm a b h1 h2 h3 y hv⟩

/-- C5 witness: the two-record sample table on the day query `11-07` and the
month query `01`. -/
theorem c5_calendar_witness :
    calendarToday [demoLevski, demoBotev] "11-07" 2025 =
      [demoLevski, demoBotev].flatMap (specTodayEvents "11-07" 2025) ∧
    calendarMonth [demoLevski, demoBotev] "01" 2025 =
      specGroup ([demoLevski, demoBotev].flatMap (specMonthPairs "01" 2025)) :=
  c5_calendar_match [demoLevski, demoBotev] "11-07" "01" 2025 (by decide)
    ⟨'0', '1', by decide, by decide, by decide⟩

/-- Every event of the today per-row scan is a `mkEvent` of one of the row's
date fields. -/
theorem mem_todayRowEvents (md : String) (y : Int) (h : Home) (ev : CalEvent)
    (hev : ev ∈ todayRowEvents md y h) :
    (∃ d, h.birth_date = some d ∧ ev = mkEvent h "birth" d y) ∨
    (∃ d, h.death_date = some d ∧ ev = mkEvent h "death" d y) := by
  unfold todayRowEvents at hev
  rcases List.mem_append.mp hev with hb | hd
  · left
    cases hbd : h.birth_date with
    | none => rw [hbd] at hb; simp at hb
    | some d =>
      rw [hbd] at hb
      dsimp only at hb
      by_cases hc : (String.mk (d.data.drop 5) == md) = true
      · rw [if_pos hc] at hb
        simp at hb
        exact ⟨d, rfl, hb⟩
      · rw [if_neg hc] at hb; simp at hb
  · right
    cases hdd : h.death_date with
    | none => rw [hdd] at hd; simp at hd
    | some d =>
      rw [hdd] at hd
      dsimp only at hd
      by_cases hc : (String.mk (d.data.drop 5) == md) = true
      · rw [if_pos hc] at hd
        simp at hd
        exact ⟨d, rfl, hd⟩
      · rw [if_neg hc] at hd; simp at hd

/-- Every spec month pair's event is a `mkEvent` of one of the row's date
fields. -/
theorem mem_specMonthPairs (mm : String) (y : Int) (h : Home)
    (q : String × CalEvent) (hq : q ∈ specMonthPairs mm y h) :
    (∃ d, h.birth_date = some d ∧ q.2 = mkEvent h "birth" d y) ∨
    (∃ d, h.death_date = some d ∧ q.2 = mkEvent h "death" d y) := by
  unfold specMonthPairs at hq
  by_cases hpub : (h.published == 1) = true
  · rw [if_pos hpub] at hq
    rcases List.mem_append.mp hq with h1 | h1
    · left
      cases hbd : h.birth_date with
      | none => rw [hbd] at h1; simp at h1
      | some d =>
        rw [hbd] at h1
        dsimp only at h1
        by_cases hc : (monthSub d == mm) = true
        · rw [if_pos hc] at h1
          simp at h1
          exact ⟨d, rfl, by rw [h1]⟩
        · rw [if_neg hc] at h1; simp at h1
    · right
      cases hdd : h.death_date with
      | none => rw [hdd] at h1; simp at h1
      | some d =>
        rw [hdd] at h1
        dsimp only at h1
        by_cases hc : (monthSub d == mm) = true
        · rw [if_pos hc] at h1
          simp at h1
          exact ⟨d, rfl, by rw [h1]⟩
        · rw [if_neg hc] at h1; simp at h1
  · rw [if_neg hpub] at hq
    simp at hq

/-- An event found in a bucket after `addEvent` was in some bucket before, or
is the added event. -/
theorem mem_addEvent (events : EventMap) (k : String) (e : CalEvent)
    (p : String × List CalEvent) (ev : CalEvent)
    (hp : p ∈ addEvent events k e) (hev : ev ∈ p.2) :
    (∃ q ∈ events, ev ∈ q.2) ∨ ev = e := by
  unfold addEvent at hp
  by_cases hany : events.any (fun p => p.1 == k) = true
  · rw [if_pos hany] at hp
    rcases List.mem_map.mp hp with ⟨q, hq, hfq⟩
    by_cases hqk : (q.1 == k) = true
    · rw [if_pos hqk] at hfq
      rw [← hfq] at hev
      rcases List.mem_append.mp hev with h1 | h1
      · exact Or.inl ⟨q, hq, h1⟩
      · exact Or.inr (by simpa using h1)
    · rw [if_neg hqk] at hfq
      rw [← hfq] at hev
      exact Or.inl ⟨q, hq, hev⟩
  · rw [if_neg hany] at hp
    rcases List.mem_append.mp hp with h1 | h1
    · exact Or.inl ⟨p, h1, hev⟩
    · have hpk : p = (k, [e]) := by simpa using h1
      rw [hpk] at hev
      exact Or.inr (by simpa using hev)

/-- Events reachable in a fold of `addEvent` come from the initial map or
from the folded pairs. -/
theorem mem_foldl_addEvent (l : List (String × CalEvent)) :
    ∀ (events : EventMap) (p : String × List CalEvent) (ev : CalEvent),
      p ∈ l.foldl (fun es q => addEvent es q.1 q.2) events → ev ∈ p.2 →
      (∃ q ∈ events, ev ∈ q.2) ∨ ∃ q ∈ l, ev = q.2 := by
  induction l with
  | nil =>
    intro events p ev hp hev
    exact Or.inl ⟨p, hp, hev⟩
  | cons q t ih =>
    intro events p ev hp hev
    rw [List.foldl_cons] at hp
    rcases ih (addEvent events q.1 q.2) p ev hp hev with h1 | h1
    · rcases h1 with ⟨r, hr, hevr⟩
      rcases mem_addEvent events q.1 q.2 r ev hr hevr with h2 | h2
      · rcases h2 with ⟨s, hs, hevs⟩
        exact Or.inl ⟨s, hs, hevs⟩
      · exact Or.inr ⟨q, by simp, h2⟩
    · rcases h1 with ⟨r, hr, hevr⟩
      exact Or.inr ⟨r, by simp [hr], hevr⟩

/-- Every event in a grouped map is the event of one of the grouped pairs. -/
theorem mem_specGroup (l : List (String × CalEvent))
    (p : String × List CalEvent) (ev : CalEvent)
    (hp : p ∈ specGroup l) (hev : ev ∈ p.2) : ∃ q ∈ l, ev = q.2 := by
  unfold specGroup at hp
  rcases mem_foldl_addEvent l [] p ev hp hev with h1 | h1
  · rcases h1 with ⟨q, hq, _⟩
    simp at hq
  · exact h1

/-- C6: on a store of calendar-valid dates, every event either endpoint
emits carries `years_ago` equal to the reference year minus the year
component of its `full_date`. -/
theorem c6_years_ago (store : List Home) (md mm : String) (y : Int)
    (hv : ∀ h ∈ store, homeDatesValid h = true)
    (hmm : ∃ a b, mm.data = [a, b] ∧ isDig a = true ∧ isDig b = true) :
    (∀ ev ∈ calendarToday store md y,
      ev.years_ago = some (y - (yearVal ev.full_date.data : Int))) ∧
    (∀ p ∈ calendarMonth store mm y, ∀ ev ∈ p.2,
      ev.years_ago = some (y - (yearVal ev.full_date.data : Int))) := by
  obtain ⟨a, b, hab, ha, hb⟩ := hmm
  constructor
  · intro ev hev
    unfold calendarToday at hev
    rcases List.mem_flatMap.mp hev with ⟨h, hh, hevr⟩
    have hmem := (List.mem_filter.mp hh).1
    have hvh := hv h hmem
    rcases mem_todayRowEvents md y h ev hevr with ⟨d, hbd, rfl⟩ | ⟨d, hdd, rfl⟩
    · have hval := homeDatesValid_birth h d hvh hbd
      simp [mkEvent, yearsAgo_of_valid y d hval]
    · have hval := homeDatesValid_death h d hvh hdd
      simp [mkEvent, yearsAgo_of_valid y d hval]
  · intro p hp ev hev
    rw [calendarMonth_spec store mm a b hab ha hb y hv] at hp
    rcases mem_specGroup _ p ev hp hev with ⟨q, hq, hevq⟩
    rcases List.mem_flatMap.mp hq with ⟨h, hh, hqr⟩
    have hvh := hv h hh
    rcases mem_specMonthPairs mm y h q hqr with ⟨d, hbd, hq2⟩ | ⟨d, hdd, hq2⟩
    · have hval := homeDatesValid_birth h d hvh hbd
      rw [hevq, hq2]
      simp [mkEvent, yearsAgo_of_valid y d hval]
    · have hval := homeDatesValid_death h d hvh hdd
      rw [hevq, hq2]
      simp [mkEvent, yearsAgo_of_valid y d hval]

/-- C6 witness: the Levski record (`birth_date` 1850-11-07) under reference
year 2025: every emitted event satisfies the subtraction, and the today query
on `11-07` indeed contains the event with `years_ago = 175`. -/
theorem c6_years_ago_witness :
    ((∀ ev ∈ calendarToday [demoLevski] "11-07" 2025,
        ev.years_ago = some (2025 - (yearVal ev.full_date.data : Int))) ∧
      (∀ p ∈ calendarMonth [demoLevski] "11" 2025, ∀ ev ∈ p.2,
        ev.years_ago = some (2025 - (yearVal ev.full_date.data : Int)))) ∧
    (⟨"Vasil Levski", "vasil-levski", "birth", "1850-11-07", some 175⟩ :
        CalEvent) ∈ calendarToday [demoLevski] "11-07" 2025 :=
  ⟨c6_years_ago [demoLevski] "11-07" "11" 2025 (by decide)
      ⟨'1', '1', by decide, by decide, by decide⟩,
    by decide⟩

/-- Digits are accepted date characters. -/
theorem sqlDateChar_of_isDig (c : Char) (h : isDig c = true) :
    sqlDateChar c = true := by
  simp [sqlDateChar, h]

/-- A string with a character outside every SQLite date format is in
particular not a calendar-valid `YYYY-MM-DD` string. -/
theorem validYMD_false_of_hopeless (d : String)
    (h : sqlDateHopeless d = true) : validYMD d = false := by
  cases hv : validYMD d
  · rfl
  · exfalso
    obtain ⟨y1, y2, y3, y4, m1, m2, d1, d2, hd, k1, k2, k3, k4, k5, k6, k7, k8⟩ :=
      valid_decomp d hv
    obtain ⟨c, hcmem, hcbad⟩ := List.any_eq_true.mp h
    simp only [Bool.not_eq_true'] at hcbad
    rw [hd] at hcmem
    simp only [List.mem_cons, List.not_mem_nil, or_false] at hcmem
    rcases hcmem with rfl | rfl | rfl | rfl | rfl | rfl | rfl | rfl | rfl | rfl
    · simp [sqlDateChar_of_isDig _ k1] at hcbad
    · simp [sqlDateChar_of_isDig _ k2] at hcbad
    · simp [sqlDateChar_of_isDig _ k3] at hcbad
    · simp [sqlDateChar_of_isDig _ k4] at hcbad
    · exact absurd hcbad (by decide)
    · simp [sqlDateChar_of_isDig _ k5] at hcbad
    · simp [sqlDateChar_of_isDig _ k6] at hcbad
    · exact absurd hcbad (by decide)
    · simp [sqlDateChar_of_isDig _ k7] at hcbad
    · simp [sqlDateChar_of_isDig _ k8] at hcbad

/-- An unparseable date string maps to `NULL` under `strftime('%m-%d')`. -/
theorem strftimeMD_none_of_hopeless (d : String)
    (h : sqlDateHopeless d = true) : strftimeMD d = none := by
  simp [strftimeMD, validYMD_false_of_hopeless d h]

/-- An unparseable date string maps to `NULL` under `strftime('%m')`. -/
theorem strftimeM_none_of_hopeless (d : String)
    (h : sqlDateHopeless d = true) : strftimeM d = none := by
  simp [strftimeM, validYMD_false_of_hopeless d h]

/-- C7: the claim says a malformed date field is never emitted as a match,
but a record admitted to the scan by its other, well-formed date can have its
malformed field emitted: with `birth_date = "xxxxx11-07"` and
`death_date = "1850-11-07"`, the today-query for `11-07` emits a birth event
for the malformed string (with a NaN `years_ago`). -/
theorem c7_malformed_emitted_counterexample :
    (⟨"Bad Date", "bad-date", "birth", "xxxxx11-07", none⟩ : CalEvent) ∈
      calendarToday [badDateHome] "11-07" 2025 := by
  decide

/-- C7 (amended): a missing date field is always skipped and no date ever
raises an error (the scan is total); a record none of whose date fields
SQLite can parse — each present field contains a character outside every
SQLite date/time format — is skipped entirely by both calendar queries,
because the SQL pre-filter never admits it.  A malformed field can only be
emitted when the record is admitted via its other, parseable date and the
malformed string happens to pass the JS month-day check. -/
theorem c7_dead_dates_amended (store : List Home) (md mm : String) (y : Int)
    (hdead : ∀ h ∈ store, homeDatesDead h = true) :
    calendarToday store md y = [] ∧ calendarMonth store mm y = [] := by
  have hopt : ∀ h ∈ store, strftimeMDOpt h.birth_date = none ∧
      strftimeMDOpt h.death_date = none ∧ strftimeMOpt h.birth_date = none ∧
      strftimeMOpt h.death_date = none := by
    intro h hm
    obtain ⟨hb, hd⟩ := Bool.and_eq_true_iff.mp (hdead h hm)
    refine ⟨?_, ?_, ?_, ?_⟩
    · cases hbd : h.birth_date with
      | none => rfl
      | some d =>
        rw [hbd] at hb
        simp only [optDeadDate] at hb
        simp [strftimeMDOpt, strftimeMD_none_of_hopeless d hb]
    · cases hdd : h.death_date with
      | none => rfl
      | some d =>
        rw [hdd] at hd
        simp only [optDeadDate] at hd
        simp [strftimeMDOpt, strftimeMD_none_of_hopeless d hd]
    · cases hbd : h.birth_date with
      | none => rfl
      | some d =>
        rw [hbd] at hb
        simp only [optDeadDate] at hb
        simp [strftimeMOpt, strftimeM_none_of_hopeless d hb]
    · cases hdd : h.death_date with
      | none => rfl
      | some d =>
        rw [hdd] at hd
        simp only [optDeadDate] at hd
        simp [strftimeMOpt, strftimeM_none_of_hopeless d hd]
  have hf1 : store.filter (todayPrefilter md) = [] := by
    rw [List.filter_eq_nil_iff]
    intro h hm
    obtain ⟨e1, e2, _, _⟩ := hopt h hm
    simp [todayPrefilter, e1, e2]
  have hf2 : store.filter (monthPrefilter mm) = [] := by
    rw [List.filter_eq_nil_iff]
    intro h hm
    obtain ⟨_, _, e3, e4⟩ := hopt h hm
    simp [monthPrefilter, e3, e4]
  constructor
  · unfold calendarToday; rw [hf1]; rfl
  · unfold calendarMonth; rw [hf2]; rfl

/-- C7 witness: a record whose dates are a malformed string and a missing
field is skipped by the today-query and the month-query. -/
theorem c7_dead_dates_witness :
    calendarToday [deadDatesHome] "11-07" 2025 = [] ∧
      calendarMonth [deadDatesHome] "11" 2025 = [] :=
  c7_dead_dates_amended [deadDatesHome] "11-07" "11" 2025 (by decide)

/-- C10 witness: a today-query with `year=2025` then one with `year=1999`
inside the TTL window yield byte-identical responses. -/
theorem c10_witness :
    (handleCalendarToday (handleCalendarToday (emptyCache (List CalEvent)) 0
        [demoLevski] "11-07" 2025).2 60000 [demoLevski] "11-07" 1999).1 =
      (handleCalendarToday (emptyCache (List CalEvent)) 0 [demoLevski] "11-07"
        2025).1 :=
  c10_today_cache_ignores_year (emptyCache (List CalEvent)) 0 60000 [demoLevski]
    "11-07" 2025 1999 rfl (by norm_num)

end HistAddr
